import Mathlib

/-!
LAN8720 PHY driver (J784S4): register access and configuration.

A shallow embedding of `lan8720.c` / `lan8720_priv.h` / `lan8720.h`.

* Machine integers are natural numbers, truncated with `u8`, `u16`, `u32`
  at the places where the C code stores into a variable or passes a
  parameter of that width.
* The MDIO bus and the PHY register file are an explicit state (`Bus`)
  threaded through every driver function.  Every bus operation is appended
  to `Bus.trace`, so that "performs no register access" is a statement about
  the trace.
* The functions of the host framework that the driver calls but does not
  define (`EnetPhy_readReg`, `EnetPhy_writeReg`, `EnetPhy_rmwReg`,
  `EnetPhy_readExtReg`, `GenericPhy_writeExtReg`, `lan8720_read_reg`,
  `lan8720_write_reg`) are
  modelled from the specification of the register access engine.
-/

namespace Lan8720

/-! ## Machine integers -/

/-- Truncation to `uint8_t`. -/
def u8 (x : Nat) : Nat := x % 256

/-- Truncation to `uint16_t`. -/
def u16 (x : Nat) : Nat := x % 65536

/-- Truncation to `uint32_t`. -/
def u32 (x : Nat) : Nat := x % 4294967296

/-- Bitwise complement as it acts under a 16-bit `&`: `data & ~mask` with
`data` and `mask` of type `uint16_t`. -/
def not16 (mask : Nat) : Nat := 0xFFFF ^^^ u16 mask

/-! ## Status codes and framework types -/

/-- Modelled from the spec: the result codes of the absent header `enetphy.h`
(success, transport failure, invalid parameter); only their being distinct
matters. -/
inductive Status where
  | ENETPHY_SOK
  | ENETPHY_EFAIL
  | ENETPHY_EINVALIDPARAMS
deriving DecidableEq, Repr

open Status

/-- Modelled from the spec: the link-mode enumeration `EnetPhy_Mii` of the
absent framework header; `other` stands for every value the driver does not
name. -/
inductive EnetPhy_Mii where
  | ENETPHY_MAC_MII_MII
  | ENETPHY_MAC_MII_RMII
  | ENETPHY_MAC_MII_RGMII
  | other (raw : Nat)
deriving DecidableEq, Repr

/-- Modelled from the spec: the PHY object behind `EnetPhy_Handle`; the driver
only uses its bus address. -/
structure EnetPhy_Obj where
  addr : Nat
deriving DecidableEq, Repr

/-- Modelled from the spec: the silicon identity `EnetPhy_Version`
(OUI, model, revision) of the absent framework header. -/
structure EnetPhy_Version where
  oui : Nat
  model : Nat
  revision : Nat
deriving DecidableEq, Repr

/-- The configuration parameters `LAN8720_Cfg` of `lan8720.h`.  Enumerated
fields are kept as the integers they are in C. -/
structure LAN8720_Cfg where
  txClkShiftEn : Bool
  rxClkShiftEn : Bool
  txDelayInPs : Nat
  rxDelayInPs : Nat
  txFifoDepth : Nat
  idleCntThresh : Nat
  impedanceInMilliOhms : Nat
  gpio0Mode : Nat
  gpio1Mode : Nat
  ledMode : Fin 4 → Nat

/-- Modelled from the spec: the framework configuration `EnetPhy_Cfg`, of
which the driver sees the bus address and the LAN8720 specific part. -/
structure EnetPhy_Cfg where
  phyAddr : Nat
  extendedCfg : LAN8720_Cfg

/-! ## Constants of `lan8720.c` and `lan8720_priv.h` -/

def ENET_PHY_ADDR : Nat := 0x01

def LAN8720_OUI : Nat := 0x000001C1
def LAN8720_MODEL : Nat := 0x27
def LAN8720_REV : Nat := 0x00

def LAN8720_BMCR : Nat := 0x00
def BMCR_RESET : Nat := 1 <<< 15
def BMCR_AUTO_NEG_ENABLE : Nat := 1 <<< 12
def BMCR_RESTART_AUTO_NEG : Nat := 1 <<< 9
def LAN8720_BMSR : Nat := 0x01
def LAN8720_PHYID1 : Nat := 0x02
def LAN8720_PHYID2 : Nat := 0x03

def LAN8720_IOMUXCFG : Nat := 0x170
def IOMUXCFG_IOIMPEDANCE_MASK : Nat := 0x001F
def IOMUXCFG_IOIMPEDANCE_MIN : Nat := 35000
def IOMUXCFG_IOIMPEDANCE_MAX : Nat := 70000
def IOMUXCFG_IOIMPEDANCE_RANGE : Nat := IOMUXCFG_IOIMPEDANCE_MAX - IOMUXCFG_IOIMPEDANCE_MIN

def LAN8720_RMIIDCTL : Nat := 0x86
def RMIIDCTL_TXDLYCTRL_MASK : Nat := 0x00F0
def RMIIDCTL_TXDLYCTRL_OFFSET : Nat := 4
def RMIIDCTL_RXDLYCTRL_MASK : Nat := 0x000F
def RMIIDCTL_RXDLYCTRL_OFFSET : Nat := 0
def RMIIDCTL_DELAY_MAX : Nat := 4000
def RMIIDCTL_DELAY_STEP : Nat := 250

def PHYCR_TXFIFODEPTH_MASK : Nat := 0xC000
def PHYCR_TXFIFODEPTH_3B : Nat := 0x0000
def PHYCR_TXFIFODEPTH_4B : Nat := 0x4000
def PHYCR_TXFIFODEPTH_6B : Nat := 0x8000
def PHYCR_TXFIFODEPTH_8B : Nat := 0xC000
def LAN8720_PHYCR : Nat := 0x1B

def LAN8720_RMIICTL : Nat := 0x32

/-- The one definition of `RMIICTL_RMIIEN` the preprocessor sees
(`lan8720_priv.h`, line 243). -/
def RMIICTL_RMIIEN : Nat := 1 <<< 7

/-- The one definition of `RMIICTL_TXCLKDLY` the preprocessor sees, `(1000U)`
(`lan8720_priv.h`, line 213).  The text `RMIICTL_TXCLKDLY (1U << 1)` of line
150 is the tail of a `//` comment. -/
def RMIICTL_TXCLKDLY : Nat := 1000

/-- The one definition of `RMIICTL_RXCLKDLY` the preprocessor sees, `(1000U)`
(`lan8720_priv.h`, line 214).  The text `RMIICTL_RXCLKDLY (1U << 0)` of line
150 is the tail of a `//` comment. -/
def RMIICTL_RXCLKDLY : Nat := 1000

def LAN8720_CTRL : Nat := 0x1F
def CTRL_SWRESET : Nat := 1 <<< 15
def CTRL_SWRESTART : Nat := 1 <<< 14

def LAN8720_STRAPSTS2 : Nat := 0x6F
def STRAPSTS2_FLD_MASK : Nat := 0x0400
def LAN8720_FLDTHRCFG : Nat := 0x70
def FLDTHRCFG_FLDTHR_MASK : Nat := 0x0007

def LAN8720_GPIOMUXCTRL : Nat := 0x172
def GPIOMUXCTRL_GPIO0_MASK : Nat := 0x000F
def GPIOMUXCTRL_GPIO0_OFFSET : Nat := 0
def GPIOMUXCTRL_GPIO1_MASK : Nat := 0x00F0
def GPIOMUXCTRL_GPIO1_OFFSET : Nat := 4

def LAN8720_LEDCR1 : Nat := 0x18
def LEDCR1_LED0SEL_OFFSET : Nat := 0
def LEDCR1_LED0SEL_MASK : Nat := 0x000F
def LEDCR1_LED1SEL_OFFSET : Nat := 4
def LEDCR1_LED1SEL_MASK : Nat := 0x00F0
def LEDCR1_LED2SEL_OFFSET : Nat := 8
def LEDCR1_LED2SEL_MASK : Nat := 0x0F00
def LEDCR1_LED3SEL_OFFSET : Nat := 12
def LEDCR1_LED3SEL_MASK : Nat := 0xF000

def LAN8720_CFG3 : Nat := 0x1E
def CFG3_ROBUSTAUTOMDIX : Nat := 1 <<< 9

def PHYCR_MDICROSSOVER_AUTO : Nat := 0x0040
def PHYCR_MDICROSSOVER_MDI : Nat := 0x0020
def PHYCR_MDICROSSOVER_MASK : Nat := 0x0060

def LAN8720_LOOPCR : Nat := 0xFE
def LOOPCR_CFG_LOOPBACK : Nat := 0xE720
def LOOPCR_CFG_NORMAL : Nat := 0xE721

/-- Modelled from the spec: the MMD access control register of the absent
header `enetphy_priv.h` (IEEE 802.3 clause 22 register 13). -/
def PHY_MMD_CR : Nat := 0x0D

/-- Modelled from the spec: the MMD access data register of the absent header
`enetphy_priv.h` (IEEE 802.3 clause 22 register 14). -/
def PHY_MMD_DR : Nat := 0x0E

/-- Modelled from the spec: the fixed device-address constant written with
every MMD control word. -/
def MMD_CR_DEVADDR : Nat := 0x001F

/-- Modelled from the spec: the control word function "address". -/
def MMD_CR_ADDR : Nat := 0x0000

/-- Modelled from the spec: the control word function "data, no
post-increment". -/
def MMD_CR_DATA_NOPOSTINC : Nat := 0x4000

/-- Modelled from the spec: the rounding-up division macro of the absent header
`enetphy_priv.h`, `((val) + (div) - 1) / (div)` in `uint32_t` arithmetic. -/
def ENETPHY_DIV_ROUNDUP (val div : Nat) : Nat := u32 (val + div + 4294967296 - 1) / div

/-! ## The bus and the PHY register file -/

/-- One operation on the MDIO bus: a read or a write of a direct register of
the PHY at a bus address. -/
inductive BusOp where
  | read (phyAddr reg : Nat)
  | write (phyAddr reg val : Nat)
deriving DecidableEq, Repr

/-- Modelled from the spec: the bus transport together with the register files
of the PHYs behind it.

* `regs a r` is direct register `r` of the PHY at address `a`;
* `mmdAddr a` is the extended address latched through the MMD data register;
* `ext a r` is extended register `r`;
* `faults` decides the fate of the coming reads, one entry per read: `none`
  (or an exhausted list) lets the read succeed, `some g` makes it fail and
  leaves `g` in the caller's variable;
* `trace` lists the bus operations issued so far, oldest first. -/
structure Bus where
  regs : Nat → Nat → Nat
  mmdAddr : Nat → Nat
  ext : Nat → Nat → Nat
  faults : List (Option Nat)
  trace : List BusOp

/-- A bus whose registers all hold `0`, with no pending read failure. -/
def Bus.zero : Bus :=
  { regs := fun _ _ => 0, mmdAddr := fun _ => 0, ext := fun _ _ => 0, faults := [], trace := [] }

/-- Whether the MMD control register of the PHY selects a data function
(bits 15:14 not both zero) rather than the address function. -/
def Bus.mmdDataMode (b : Bus) (phyAddr : Nat) : Bool :=
  decide (u16 (b.regs phyAddr PHY_MMD_CR) &&& 0xC000 ≠ 0)

/-- The value a successful read of a direct register delivers.  The MMD data
register shows the latched address in address mode and the addressed extended
register in data mode. -/
def Bus.peek (b : Bus) (phyAddr reg : Nat) : Nat :=
  if reg = PHY_MMD_DR then
    if b.mmdDataMode phyAddr then u16 (b.ext phyAddr (b.mmdAddr phyAddr))
    else u16 (b.mmdAddr phyAddr)
  else u16 (b.regs phyAddr reg)

/-- The register files after a write of a direct register. -/
def Bus.poke (b : Bus) (phyAddr reg val : Nat) : Bus :=
  if reg = PHY_MMD_DR then
    if b.mmdDataMode phyAddr then
      { b with ext := fun a r =>
          if a = phyAddr ∧ r = b.mmdAddr phyAddr then u16 val else b.ext a r }
    else
      { b with mmdAddr := fun a => if a = phyAddr then u16 val else b.mmdAddr a }
  else
    { b with regs := fun a r => if a = phyAddr ∧ r = reg then u16 val else b.regs a r }

/-- What a register read hands back: the status, the 16-bit value left in the
caller's variable, and the bus afterwards. -/
structure ReadResult where
  status : Status
  data : Nat
  bus : Bus

/-- Modelled from the spec: `transportWrite(deviceAddress, registerAddress,
value)`.  The driver never looks at the result of a write, and writes do not
fail in this model. -/
def transportWrite (b : Bus) (phyAddr reg val : Nat) : Bus :=
  { b.poke phyAddr reg val with trace := b.trace ++ [BusOp.write phyAddr reg (u16 val)] }

/-- Modelled from the spec: `transportRead(deviceAddress, registerAddress)`,
failing when the next entry of `faults` says so. -/
def transportRead (b : Bus) (phyAddr reg : Nat) : ReadResult :=
  let t := b.trace ++ [BusOp.read phyAddr reg]
  match b.faults with
  | some g :: rest =>
      { status := ENETPHY_EFAIL, data := u16 g, bus := { b with faults := rest, trace := t } }
  | none :: rest =>
      { status := ENETPHY_SOK, data := b.peek phyAddr reg,
        bus := { b with faults := rest, trace := t } }
  | [] =>
      { status := ENETPHY_SOK, data := b.peek phyAddr reg, bus := { b with trace := t } }

/-- Whether the next bus read will succeed. -/
def Bus.nextReadOk (b : Bus) : Bool :=
  match b.faults with
  | some _ :: _ => false
  | _ => true

/-- The word a read-modify-write stores: `(data & ~mask) | (val & mask)`
assigned to a `uint16_t`, with `mask` and `val` of type `uint16_t`. -/
def rmwMerge (data mask val : Nat) : Nat :=
  u16 ((data &&& not16 mask) ||| (u16 val &&& u16 mask))

/-- Modelled from the spec: `readDirect` of the framework. -/
def EnetPhy_readReg (b : Bus) (hPhy : EnetPhy_Obj) (reg : Nat) : ReadResult :=
  transportRead b hPhy.addr reg

/-- Modelled from the spec: `writeDirect` of the framework. -/
def EnetPhy_writeReg (b : Bus) (hPhy : EnetPhy_Obj) (reg val : Nat) : Bus :=
  transportWrite b hPhy.addr reg val

/-- Modelled from the spec: `readModifyWriteDirect(addr, mask, value)`, which
"computes `(current & ~mask) | (value & mask)` and writes back" after the
read, and writes nothing when the read fails. -/
def EnetPhy_rmwReg (b : Bus) (hPhy : EnetPhy_Obj) (reg mask val : Nat) : Status × Bus :=
  let r := EnetPhy_readReg b hPhy reg
  if r.status = ENETPHY_SOK then
    let data := rmwMerge r.data mask val
    (ENETPHY_SOK, EnetPhy_writeReg r.bus hPhy reg data)
  else
    (r.status, r.bus)

/-- Modelled from the spec: the exposed passthrough `writeExtendedRegister`,
the indirect protocol with a plain write as its last step. -/
def GenericPhy_writeExtReg (b : Bus) (hPhy : EnetPhy_Obj) (reg val : Nat) : Bus :=
  let devad := u16 MMD_CR_DEVADDR
  let b1 := EnetPhy_writeReg b hPhy PHY_MMD_CR (devad ||| MMD_CR_ADDR)
  let b2 := EnetPhy_writeReg b1 hPhy PHY_MMD_DR reg
  let b3 := EnetPhy_writeReg b2 hPhy PHY_MMD_CR (devad ||| MMD_CR_DATA_NOPOSTINC)
  EnetPhy_writeReg b3 hPhy PHY_MMD_DR val

/-- Modelled from the spec: the exposed passthrough `readExtendedRegister`,
the indirect protocol with a plain read as its last step. -/
def EnetPhy_readExtReg (b : Bus) (hPhy : EnetPhy_Obj) (reg : Nat) : ReadResult :=
  let devad := u16 MMD_CR_DEVADDR
  let b1 := EnetPhy_writeReg b hPhy PHY_MMD_CR (devad ||| MMD_CR_ADDR)
  let b2 := EnetPhy_writeReg b1 hPhy PHY_MMD_DR reg
  let b3 := EnetPhy_writeReg b2 hPhy PHY_MMD_CR (devad ||| MMD_CR_DATA_NOPOSTINC)
  EnetPhy_readReg b3 hPhy PHY_MMD_DR

/-- Modelled from the spec: the direct register read by bus address used by
`Ethernet_config`. -/
def lan8720_read_reg (b : Bus) (phyAddr reg : Nat) : ReadResult :=
  transportRead b phyAddr reg

/-- Modelled from the spec: the direct register write by bus address used by
`Ethernet_config`. -/
def lan8720_write_reg (b : Bus) (phyAddr reg val : Nat) : Bus :=
  transportWrite b phyAddr reg val

/-! ## The driver -/

/-- The function `Ethernet_config`: reads the two PHY ID registers and enables
auto-negotiation with one write of the basic control register. -/
def Ethernet_config (b : Bus) : Bus :=
  let r1 := lan8720_read_reg b ENET_PHY_ADDR LAN8720_PHYID1
  let r2 := lan8720_read_reg r1.bus ENET_PHY_ADDR LAN8720_PHYID2
  let ctrlReg := u16 (BMCR_AUTO_NEG_ENABLE ||| BMCR_RESTART_AUTO_NEG)
  lan8720_write_reg r2.bus ENET_PHY_ADDR LAN8720_BMCR ctrlReg

/-- The function `Lan8720_isPhyDevSupported`. -/
def Lan8720_isPhyDevSupported (_hPhy : EnetPhy_Obj) (version : EnetPhy_Version) : Bool :=
  if version.oui = LAN8720_OUI ∧ version.model = LAN8720_MODEL ∧
      version.revision = LAN8720_REV then true
  else false

/-- The function `Lan8720_config`: runs `Ethernet_config` and returns `ENETPHY_SOK`;
`hPhy`, `cfg` and `mii` are not used. -/
def Lan8720_config (b : Bus) (_hPhy : EnetPhy_Obj) (_cfg : EnetPhy_Cfg) (_mii : EnetPhy_Mii) :
    Status × Bus :=
  (ENETPHY_SOK, Ethernet_config b)

/-- The function `Lan8720_rmwExtReg`: read-modify-write of an extended register through
the MMD control and data registers. -/
def Lan8720_rmwExtReg (b : Bus) (hPhy : EnetPhy_Obj) (reg mask val : Nat) : Bus :=
  let devad := u16 MMD_CR_DEVADDR
  let b1 := EnetPhy_writeReg b hPhy PHY_MMD_CR (devad ||| MMD_CR_ADDR)
  let b2 := EnetPhy_writeReg b1 hPhy PHY_MMD_DR (u32 reg)
  let b3 := EnetPhy_writeReg b2 hPhy PHY_MMD_CR (devad ||| MMD_CR_DATA_NOPOSTINC)
  let r := EnetPhy_readReg b3 hPhy PHY_MMD_DR
  if r.status = ENETPHY_SOK then
    let data := rmwMerge r.data mask val
    let b4 := EnetPhy_writeReg r.bus hPhy PHY_MMD_CR (devad ||| MMD_CR_DATA_NOPOSTINC)
    EnetPhy_writeReg b4 hPhy PHY_MMD_DR data
  else
    r.bus

/-- The `switch` of `Lan8720_setTxFifoDepth`: the status and the field value
`val` it leaves for a depth. -/
def txFifoDepthSel (depth : Nat) : Status × Nat :=
  if u8 depth = 3 then (ENETPHY_SOK, PHYCR_TXFIFODEPTH_3B)
  else if u8 depth = 4 then (ENETPHY_SOK, PHYCR_TXFIFODEPTH_4B)
  else if u8 depth = 6 then (ENETPHY_SOK, PHYCR_TXFIFODEPTH_6B)
  else if u8 depth = 8 then (ENETPHY_SOK, PHYCR_TXFIFODEPTH_8B)
  else (ENETPHY_EINVALIDPARAMS, 0)

/-- The function `Lan8720_setTxFifoDepth`; the status of `EnetPhy_rmwReg` is dropped, as in
the source. -/
def Lan8720_setTxFifoDepth (b : Bus) (hPhy : EnetPhy_Obj) (depth : Nat) : Status × Bus :=
  let sel := txFifoDepthSel depth
  if sel.1 = ENETPHY_SOK then
    (sel.1, (EnetPhy_rmwReg b hPhy LAN8720_PHYCR PHYCR_TXFIFODEPTH_MASK sel.2).2)
  else
    (sel.1, b)

/-- The step count `ENETPHY_DIV_ROUNDUP(delay, RMIIDCTL_DELAY_STEP) - 1U` that
`Lan8720_setClkDelay` computes for one delay, a zero delay counting as 1. -/
def delayCtrl (d : Nat) : Nat :=
  let delay := if u32 d > 0 then u32 d else 1
  u32 (ENETPHY_DIV_ROUNDUP delay RMIIDCTL_DELAY_STEP + 4294967296 - 1)

/-- The word `Lan8720_setClkDelay` builds from the two step counts. -/
def clkDelayVal (txDelay rxDelay : Nat) : Nat :=
  let val := u16 (u32 (delayCtrl txDelay <<< RMIIDCTL_TXDLYCTRL_OFFSET) &&& RMIIDCTL_TXDLYCTRL_MASK)
  val ||| u16 (u32 (delayCtrl rxDelay <<< RMIIDCTL_RXDLYCTRL_OFFSET) &&& RMIIDCTL_RXDLYCTRL_MASK)

/-- The function `Lan8720_setClkDelay`. -/
def Lan8720_setClkDelay (b : Bus) (hPhy : EnetPhy_Obj) (txDelay rxDelay : Nat) : Status × Bus :=
  if u32 txDelay ≤ RMIIDCTL_DELAY_MAX ∧ u32 rxDelay ≤ RMIIDCTL_DELAY_MAX then
    (ENETPHY_SOK, GenericPhy_writeExtReg b hPhy LAN8720_RMIIDCTL (clkDelayVal txDelay rxDelay))
  else
    (ENETPHY_EINVALIDPARAMS, b)

/-- The raw code `Lan8720_setOutputImpedance` computes, in `uint32_t`
arithmetic. -/
def impedanceVal (impedance : Nat) : Nat :=
  let val := u32 (u32 (IOMUXCFG_IOIMPEDANCE_MAX + 4294967296 - u32 impedance) *
    IOMUXCFG_IOIMPEDANCE_MASK)
  u32 (val + IOMUXCFG_IOIMPEDANCE_RANGE / 2) / IOMUXCFG_IOIMPEDANCE_RANGE

/-- The function `Lan8720_setOutputImpedance`. -/
def Lan8720_setOutputImpedance (b : Bus) (hPhy : EnetPhy_Obj) (impedance : Nat) : Status × Bus :=
  if u32 impedance ≥ IOMUXCFG_IOIMPEDANCE_MIN ∧ u32 impedance ≤ IOMUXCFG_IOIMPEDANCE_MAX then
    (ENETPHY_SOK,
      Lan8720_rmwExtReg b hPhy LAN8720_IOMUXCFG IOMUXCFG_IOIMPEDANCE_MASK (impedanceVal impedance))
  else
    (ENETPHY_EINVALIDPARAMS, b)

/-- The function `Lan8720_isMacModeSupported`. -/
def Lan8720_isMacModeSupported (_hPhy : EnetPhy_Obj) (mii : EnetPhy_Mii) : Bool :=
  match mii with
  | .ENETPHY_MAC_MII_MII => true
  | .ENETPHY_MAC_MII_RMII => true
  | .ENETPHY_MAC_MII_RGMII => false
  | .other _ => false

/-- The function `Lan8720_reset` as defined first (`lan8720.c`, line 274): one
write of `BMCR_RESET` to the basic control register of the PHY at
`ENET_PHY_ADDR`. -/
def Lan8720_reset_bmcr (b : Bus) (_hPhy : EnetPhy_Obj) : Bus :=
  lan8720_write_reg b ENET_PHY_ADDR LAN8720_BMCR BMCR_RESET

/-- The function `Lan8720_isResetComplete` as defined first (`lan8720.c`, line
282); the status of the read is not looked at. -/
def Lan8720_isResetComplete_bmcr (b : Bus) (_hPhy : EnetPhy_Obj) : Bool × Bus :=
  let r := lan8720_read_reg b ENET_PHY_ADDR LAN8720_BMCR
  (decide (r.data &&& BMCR_RESET = 0), r.bus)

/-- The function `Lan8720_reset` as defined second (`lan8720.c`, line 508): a
read-modify-write of the global control register of the PHY of the handle. -/
def Lan8720_reset_ctrl (b : Bus) (hPhy : EnetPhy_Obj) : Bus :=
  (EnetPhy_rmwReg b hPhy LAN8720_CTRL CTRL_SWRESET CTRL_SWRESET).2

/-- The function `Lan8720_isResetComplete` as defined second (`lan8720.c`, line
517). -/
def Lan8720_isResetComplete_ctrl (b : Bus) (hPhy : EnetPhy_Obj) : Bool × Bus :=
  let r := EnetPhy_readReg b hPhy LAN8720_CTRL
  let complete := if r.status = ENETPHY_SOK then decide (r.data &&& CTRL_SWRESET = 0) else false
  (complete, r.bus)

/-- The function `Lan8720_setMiiMode`.  Its call of `Lan8720_rmwExtReg(hPhy,
reg, mask, val)` passes `val` in the place of the mask and `RMIICTL_RMIIEN` in
the place of the value, as the source does. -/
def Lan8720_setMiiMode (b : Bus) (hPhy : EnetPhy_Obj) (mii : EnetPhy_Mii) : Bus :=
  let val := if mii = EnetPhy_Mii.ENETPHY_MAC_MII_RMII then u16 RMIICTL_RMIIEN else 0
  Lan8720_rmwExtReg b hPhy LAN8720_RMIICTL val RMIICTL_RMIIEN

/-- The field value `val` that `Lan8720_setClkShift` builds. -/
def clkShiftVal (txShiftEn rxShiftEn : Bool) : Nat :=
  u16 ((if txShiftEn then RMIICTL_TXCLKDLY else 0) ||| (if rxShiftEn then RMIICTL_RXCLKDLY else 0))

/-- The mask `RMIICTL_TXCLKDLY | RMIICTL_RXCLKDLY` that `Lan8720_setClkShift`
passes. -/
def clkShiftMask : Nat := RMIICTL_TXCLKDLY ||| RMIICTL_RXCLKDLY

/-- The function `Lan8720_setClkShift`. -/
def Lan8720_setClkShift (b : Bus) (hPhy : EnetPhy_Obj) (txShiftEn rxShiftEn : Bool) : Bus :=
  Lan8720_rmwExtReg b hPhy LAN8720_RMIICTL clkShiftMask (clkShiftVal txShiftEn rxShiftEn)

/-- The function `Lan8720_fixFldStrap`; the status of the extended read is not
looked at, as in the source. -/
def Lan8720_fixFldStrap (b : Bus) (hPhy : EnetPhy_Obj) : Bus :=
  let r := EnetPhy_readExtReg b hPhy LAN8720_STRAPSTS2
  if r.data &&& STRAPSTS2_FLD_MASK ≠ 0 then
    Lan8720_rmwExtReg r.bus hPhy LAN8720_FLDTHRCFG FLDTHRCFG_FLDTHR_MASK 1
  else
    r.bus

/-- The function `Lan8720_setLoopbackCfg`. -/
def Lan8720_setLoopbackCfg (b : Bus) (hPhy : EnetPhy_Obj) (enable : Bool) : Bus :=
  let val := if enable then LOOPCR_CFG_LOOPBACK else LOOPCR_CFG_NORMAL
  GenericPhy_writeExtReg b hPhy LAN8720_LOOPCR val

/-- The function `Lan8720_enableAutoMdix`; the statuses of `EnetPhy_rmwReg`
are dropped, as in the source. -/
def Lan8720_enableAutoMdix (b : Bus) (hPhy : EnetPhy_Obj) (enable : Bool) : Bus :=
  let val := if enable then PHYCR_MDICROSSOVER_AUTO else PHYCR_MDICROSSOVER_MDI
  let b1 := (EnetPhy_rmwReg b hPhy LAN8720_PHYCR PHYCR_MDICROSSOVER_MASK val).2
  if enable then
    (EnetPhy_rmwReg b1 hPhy LAN8720_CFG3 CFG3_ROBUSTAUTOMDIX CFG3_ROBUSTAUTOMDIX).2
  else
    b1

/-- The value `gpio0 | gpio1` that `Lan8720_setGpioMux` builds: each mode is
cast to `uint16_t`, shifted and masked; both fields fit the `int16_t`
variables that hold them. -/
def gpioMuxVal (gpio0Mode gpio1Mode : Nat) : Nat :=
  ((u16 gpio0Mode <<< GPIOMUXCTRL_GPIO0_OFFSET) &&& GPIOMUXCTRL_GPIO0_MASK) |||
    ((u16 gpio1Mode <<< GPIOMUXCTRL_GPIO1_OFFSET) &&& GPIOMUXCTRL_GPIO1_MASK)

/-- The function `Lan8720_setGpioMux`. -/
def Lan8720_setGpioMux (b : Bus) (hPhy : EnetPhy_Obj) (gpio0Mode gpio1Mode : Nat) : Bus :=
  Lan8720_rmwExtReg b hPhy LAN8720_GPIOMUXCTRL
    (GPIOMUXCTRL_GPIO0_MASK ||| GPIOMUXCTRL_GPIO1_MASK) (gpioMuxVal gpio0Mode gpio1Mode)

/-- The word `val` that `Lan8720_setLedMode` packs from `ledMode[0..3]`. -/
def ledVal (ledMode : Fin 4 → Nat) : Nat :=
  u16 (((u16 (ledMode 0) <<< LEDCR1_LED0SEL_OFFSET) &&& LEDCR1_LED0SEL_MASK) |||
    ((u16 (ledMode 1) <<< LEDCR1_LED1SEL_OFFSET) &&& LEDCR1_LED1SEL_MASK) |||
    ((u16 (ledMode 2) <<< LEDCR1_LED2SEL_OFFSET) &&& LEDCR1_LED2SEL_MASK) |||
    ((u16 (ledMode 3) <<< LEDCR1_LED3SEL_OFFSET) &&& LEDCR1_LED3SEL_MASK))

/-- The function `Lan8720_setLedMode`: one plain write of the packed word. -/
def Lan8720_setLedMode (b : Bus) (hPhy : EnetPhy_Obj) (ledMode : Fin 4 → Nat) : Bus :=
  EnetPhy_writeReg b hPhy LAN8720_LEDCR1 (ledVal ledMode)

/-! ## Auxiliary definitions for the statements -/

/-- The LED write as the specification's invariant would have it: a
read-modify-write of the packed word under the union of the four LED field
masks. -/
def setLedMode_rmw (b : Bus) (hPhy : EnetPhy_Obj) (ledMode : Fin 4 → Nat) : Status × Bus :=
  EnetPhy_rmwReg b hPhy LAN8720_LEDCR1
    (LEDCR1_LED0SEL_MASK ||| LEDCR1_LED1SEL_MASK ||| LEDCR1_LED2SEL_MASK |||
      LEDCR1_LED3SEL_MASK) (ledVal ledMode)

/-- Whether the next `n` bus reads will succeed. -/
def Bus.readsOk (b : Bus) (n : Nat) : Bool :=
  (b.faults.take n).all (fun f => f.isNone)

/-- The bus after the three writes that select an extended register for data
access. -/
def mmdSelect (b : Bus) (a reg : Nat) : Bus :=
  { regs := fun p r => if p = a ∧ r = PHY_MMD_CR then 0x401F else b.regs p r
    mmdAddr := fun p => if p = a then u16 reg else b.mmdAddr p
    ext := b.ext
    faults := b.faults
    trace := b.trace ++ [BusOp.write a PHY_MMD_CR 0x1F, BusOp.write a PHY_MMD_DR (u16 reg),
      BusOp.write a PHY_MMD_CR 0x401F] }

/-- A configuration inside every documented range. -/
def cfgInRange : LAN8720_Cfg :=
  { txClkShiftEn := false, rxClkShiftEn := false, txDelayInPs := 1000, rxDelayInPs := 250,
    txFifoDepth := 4, idleCntThresh := 5, impedanceInMilliOhms := 50000,
    gpio0Mode := 0, gpio1Mode := 0, ledMode := fun _ => 0 }

/-! ## The specification's formulas -/

/-- The step count as the specification writes it:
`steps(d) = ceil(max(d,1)/250) - 1`. -/
def steps (d : Nat) : Nat := (max d 1 + 249) / 250 - 1

/-- The raw impedance code as the specification writes it, round-half-up of
`(70000 - z) * 31 / 35000`, over the unbounded naturals. -/
def rawImpedance (z : Nat) : Nat := ((70000 - z) * 31 + 17500) / 35000

/-! ## Lemmas on the bus -/

theorem mmd_cr_ne_dr : PHY_MMD_CR ≠ PHY_MMD_DR := by decide

theorem mmdDataMode_addr (b : Bus) (a : Nat) (h : b.regs a PHY_MMD_CR = 0x1F) :
    b.mmdDataMode a = false := by
  simp only [Bus.mmdDataMode, h, u16]; decide

theorem mmdDataMode_data (b : Bus) (a : Nat) (h : b.regs a PHY_MMD_CR = 0x401F) :
    b.mmdDataMode a = true := by
  simp only [Bus.mmdDataMode, h, u16]; decide

theorem transportWrite_direct (b : Bus) (a reg val : Nat) (h : reg ≠ PHY_MMD_DR) :
    transportWrite b a reg val =
      { b with
        regs := fun p r => if p = a ∧ r = reg then u16 val else b.regs p r
        trace := b.trace ++ [BusOp.write a reg (u16 val)] } := by
  simp [transportWrite, Bus.poke, h]

theorem transportWrite_dr_addr (b : Bus) (a val : Nat) (h : b.regs a PHY_MMD_CR = 0x1F) :
    transportWrite b a PHY_MMD_DR val =
      { b with
        mmdAddr := fun p => if p = a then u16 val else b.mmdAddr p
        trace := b.trace ++ [BusOp.write a PHY_MMD_DR (u16 val)] } := by
  simp [transportWrite, Bus.poke, mmdDataMode_addr b a h]

theorem transportWrite_dr_data (b : Bus) (a val : Nat) (h : b.regs a PHY_MMD_CR = 0x401F) :
    transportWrite b a PHY_MMD_DR val =
      { b with
        ext := fun p r => if p = a ∧ r = b.mmdAddr a then u16 val else b.ext p r
        trace := b.trace ++ [BusOp.write a PHY_MMD_DR (u16 val)] } := by
  simp [transportWrite, Bus.poke, mmdDataMode_data b a h]

theorem transportRead_ok (b : Bus) (a reg : Nat) (h : b.nextReadOk = true) :
    transportRead b a reg =
      { status := ENETPHY_SOK, data := b.peek a reg,
        bus := { b with faults := b.faults.tail, trace := b.trace ++ [BusOp.read a reg] } } := by
  unfold transportRead
  rcases hf : b.faults with _ | ⟨f, rest⟩
  · simp
  · cases f with
    | none => simp
    | some g => simp [Bus.nextReadOk, hf] at h

theorem transportRead_fail (b : Bus) (a reg g : Nat) (rest : List (Option Nat))
    (h : b.faults = some g :: rest) :
    transportRead b a reg =
      { status := ENETPHY_EFAIL, data := u16 g,
        bus := { b with faults := rest, trace := b.trace ++ [BusOp.read a reg] } } := by
  simp [transportRead, h]

theorem u16_u16 (x : Nat) : u16 (u16 x) = u16 x := by
  simp [u16]

theorem u16_lt (x : Nat) : u16 x < 65536 := by
  unfold u16; omega

theorem u16_of_lt {x : Nat} (h : x < 65536) : u16 x = x := by
  unfold u16; omega

theorem mmdSelect_eq (b : Bus) (a reg : Nat) :
    transportWrite (transportWrite (transportWrite b a PHY_MMD_CR
      (u16 MMD_CR_DEVADDR ||| MMD_CR_ADDR)) a PHY_MMD_DR reg) a PHY_MMD_CR
      (u16 MMD_CR_DEVADDR ||| MMD_CR_DATA_NOPOSTINC) = mmdSelect b a reg := by
  have e1 : u16 (u16 MMD_CR_DEVADDR ||| MMD_CR_ADDR) = 0x1F := by decide
  have e2 : u16 (u16 MMD_CR_DEVADDR ||| MMD_CR_DATA_NOPOSTINC) = 0x401F := by decide
  simp [transportWrite_direct _ _ _ _ mmd_cr_ne_dr, e1, e2, transportWrite_dr_addr, mmdSelect]
  funext p r; split_ifs <;> rfl

theorem mmdSelect_peek (b : Bus) (a reg : Nat) :
    (mmdSelect b a reg).peek a PHY_MMD_DR = u16 (b.ext a (u16 reg)) := by
  have h : (mmdSelect b a reg).mmdDataMode a = true :=
    mmdDataMode_data _ _ (by simp [mmdSelect])
  unfold Bus.peek
  rw [if_pos rfl, h]
  simp [mmdSelect]

/-- Closed form of an extended register write. -/
theorem writeExtReg_eq (b : Bus) (hPhy : EnetPhy_Obj) (reg val : Nat) :
    GenericPhy_writeExtReg b hPhy reg val =
      { regs := fun a r => if a = hPhy.addr ∧ r = PHY_MMD_CR then 0x401F else b.regs a r
        mmdAddr := fun a => if a = hPhy.addr then u16 reg else b.mmdAddr a
        ext := fun a r => if a = hPhy.addr ∧ r = u16 reg then u16 val else b.ext a r
        faults := b.faults
        trace := b.trace ++ [BusOp.write hPhy.addr PHY_MMD_CR 0x1F,
          BusOp.write hPhy.addr PHY_MMD_DR (u16 reg),
          BusOp.write hPhy.addr PHY_MMD_CR 0x401F,
          BusOp.write hPhy.addr PHY_MMD_DR (u16 val)] } := by
  unfold GenericPhy_writeExtReg EnetPhy_writeReg
  simp only []
  rw [mmdSelect_eq, transportWrite_dr_data _ _ _ (by simp [mmdSelect])]
  simp [mmdSelect]

/-- Closed form of the extended read-modify-write when its read succeeds. -/
theorem rmwExtReg_ok_eq (b : Bus) (hPhy : EnetPhy_Obj) (reg mask val : Nat)
    (h : b.nextReadOk = true) :
    Lan8720_rmwExtReg b hPhy reg mask val =
      { regs := fun a r => if a = hPhy.addr ∧ r = PHY_MMD_CR then 0x401F else b.regs a r
        mmdAddr := fun a => if a = hPhy.addr then u16 (u32 reg) else b.mmdAddr a
        ext := fun a r =>
          if a = hPhy.addr ∧ r = u16 (u32 reg) then
            rmwMerge (u16 (b.ext hPhy.addr (u16 (u32 reg)))) mask val
          else b.ext a r
        faults := b.faults.tail
        trace := b.trace ++ [BusOp.write hPhy.addr PHY_MMD_CR 0x1F,
          BusOp.write hPhy.addr PHY_MMD_DR (u16 (u32 reg)),
          BusOp.write hPhy.addr PHY_MMD_CR 0x401F,
          BusOp.read hPhy.addr PHY_MMD_DR,
          BusOp.write hPhy.addr PHY_MMD_CR 0x401F,
          BusOp.write hPhy.addr PHY_MMD_DR
            (rmwMerge (u16 (b.ext hPhy.addr (u16 (u32 reg)))) mask val)] } := by
  have e2 : u16 (u16 MMD_CR_DEVADDR ||| MMD_CR_DATA_NOPOSTINC) = 0x401F := by decide
  have hm : ∀ d, u16 (rmwMerge d mask val) = rmwMerge d mask val := fun d => by
    simp [rmwMerge, u16_u16]
  have hok : (mmdSelect b hPhy.addr (u32 reg)).nextReadOk = true := by
    simpa [Bus.nextReadOk, mmdSelect] using h
  unfold Lan8720_rmwExtReg EnetPhy_writeReg EnetPhy_readReg
  simp only []
  rw [mmdSelect_eq, transportRead_ok _ _ _ hok]
  simp only [if_true, mmdSelect_peek]
  rw [transportWrite_direct _ _ _ _ mmd_cr_ne_dr, e2,
    transportWrite_dr_data _ _ _ (by simp [mmdSelect])]
  simp [mmdSelect, hm]
  funext p r; split_ifs <;> rfl

/-- Closed form of the extended read-modify-write when its read fails. -/
theorem rmwExtReg_fail_eq (b : Bus) (hPhy : EnetPhy_Obj) (reg mask val g : Nat)
    (rest : List (Option Nat)) (h : b.faults = some g :: rest) :
    Lan8720_rmwExtReg b hPhy reg mask val =
      { regs := fun a r => if a = hPhy.addr ∧ r = PHY_MMD_CR then 0x401F else b.regs a r
        mmdAddr := fun a => if a = hPhy.addr then u16 (u32 reg) else b.mmdAddr a
        ext := b.ext
        faults := rest
        trace := b.trace ++ [BusOp.write hPhy.addr PHY_MMD_CR 0x1F,
          BusOp.write hPhy.addr PHY_MMD_DR (u16 (u32 reg)),
          BusOp.write hPhy.addr PHY_MMD_CR 0x401F,
          BusOp.read hPhy.addr PHY_MMD_DR] } := by
  have hf : (mmdSelect b hPhy.addr (u32 reg)).faults = some g :: rest := by
    simpa [mmdSelect] using h
  unfold Lan8720_rmwExtReg EnetPhy_writeReg EnetPhy_readReg
  simp only []
  rw [mmdSelect_eq, transportRead_fail _ _ _ g rest hf]
  simp [mmdSelect]

/-- Closed form of the direct read-modify-write when its read succeeds. -/
theorem rmwReg_ok_eq (b : Bus) (hPhy : EnetPhy_Obj) (reg mask val : Nat)
    (hreg : reg ≠ PHY_MMD_DR) (h : b.nextReadOk = true) :
    EnetPhy_rmwReg b hPhy reg mask val =
      (ENETPHY_SOK,
        { b with
          regs := fun a r =>
            if a = hPhy.addr ∧ r = reg then rmwMerge (u16 (b.regs hPhy.addr reg)) mask val
            else b.regs a r
          faults := b.faults.tail
          trace := b.trace ++ [BusOp.read hPhy.addr reg,
            BusOp.write hPhy.addr reg (rmwMerge (u16 (b.regs hPhy.addr reg)) mask val)] }) := by
  have hm : ∀ d, u16 (rmwMerge d mask val) = rmwMerge d mask val := fun d => by
    simp [rmwMerge, u16_u16]
  unfold EnetPhy_rmwReg EnetPhy_writeReg EnetPhy_readReg
  simp only []
  rw [transportRead_ok _ _ _ h]
  simp only [if_true]
  rw [transportWrite_direct _ _ _ _ hreg]
  simp [Bus.peek, hreg, hm]

/-! ## Lemmas on the merged word -/

theorem testBit_65535 (i : Nat) : (65535 : Nat).testBit i = decide (i < 16) := by
  have h : (65535 : Nat) = 2 ^ 16 - 1 := by norm_num
  rw [h, Nat.testBit_two_pow_sub_one]

theorem testBit_u16 (x i : Nat) : (u16 x).testBit i = (decide (i < 16) && x.testBit i) := by
  have h : (65536 : Nat) = 2 ^ 16 := by norm_num
  unfold u16
  rw [h, Nat.testBit_mod_two_pow]

theorem testBit_of_lt_65536 {x : Nat} (h : x < 65536) {i : Nat} (hi : 16 ≤ i) :
    x.testBit i = false := by
  apply Nat.testBit_lt_two_pow
  calc x < 2 ^ 16 := by norm_num; exact h
    _ ≤ 2 ^ i := Nat.pow_le_pow_right (by norm_num) hi

/-- Bit by bit, the merged word takes the bit of `val` inside the mask and the
bit of `data` outside it, within the 16 bits of the register. -/
theorem rmwMerge_testBit (data mask val i : Nat) :
    (rmwMerge data mask val).testBit i =
      (decide (i < 16) && (if mask.testBit i then val.testBit i else data.testBit i)) := by
  unfold rmwMerge not16
  simp only [testBit_u16, Nat.testBit_or, Nat.testBit_and, Nat.testBit_xor, testBit_65535]
  by_cases hi : i < 16 <;> cases mask.testBit i <;> cases val.testBit i <;>
    cases data.testBit i <;> simp [hi]

theorem rmwMerge_lt (data mask val : Nat) : rmwMerge data mask val < 65536 :=
  u16_lt _

/-- On 16-bit operands the merged word is `(data & ~mask) | (val & mask)`. -/
theorem rmwMerge_eq (data mask val : Nat) (hd : data < 65536) (hm : mask < 65536) :
    rmwMerge data mask val = (data &&& (0xFFFF ^^^ mask)) ||| (val &&& mask) := by
  apply Nat.eq_of_testBit_eq
  intro i
  rw [rmwMerge_testBit]
  simp only [Nat.testBit_or, Nat.testBit_and, Nat.testBit_xor, testBit_65535]
  by_cases hi : i < 16
  · cases mask.testBit i <;> cases val.testBit i <;> cases data.testBit i <;> simp [hi]
  · have h1 := testBit_of_lt_65536 hd (Nat.le_of_not_lt hi)
    have h2 := testBit_of_lt_65536 hm (Nat.le_of_not_lt hi)
    simp [hi, h1, h2]

theorem rmwMerge_and_mask (data mask val : Nat) (hm : mask < 65536) :
    rmwMerge data mask val &&& mask = val &&& mask := by
  apply Nat.eq_of_testBit_eq
  intro i
  simp only [Nat.testBit_and, rmwMerge_testBit]
  by_cases hi : i < 16
  · cases mask.testBit i <;> simp [hi]
  · simp [hi, testBit_of_lt_65536 hm (Nat.le_of_not_lt hi)]

theorem rmwMerge_and_not_mask (data mask val : Nat) (hd : data < 65536) :
    rmwMerge data mask val &&& (0xFFFF ^^^ mask) = data &&& (0xFFFF ^^^ mask) := by
  apply Nat.eq_of_testBit_eq
  intro i
  simp only [Nat.testBit_and, Nat.testBit_xor, testBit_65535, rmwMerge_testBit]
  by_cases hi : i < 16
  · cases mask.testBit i <;> simp [hi]
  · simp [hi, testBit_of_lt_65536 hd (Nat.le_of_not_lt hi)]

theorem delayCtrl_eq_steps {d : Nat} (h : d ≤ 4000) : delayCtrl d = steps d := by
  unfold delayCtrl steps ENETPHY_DIV_ROUNDUP u32 RMIIDCTL_DELAY_STEP
  rcases Nat.eq_zero_or_pos d with h0 | h0
  · subst h0; decide
  · have h1 : d % 4294967296 = d := by omega
    have h2 : max d 1 = d := by omega
    simp only [h1, h2, h0, if_true, gt_iff_lt]
    omega

theorem steps_le {d : Nat} (h : d ≤ 4000) : steps d ≤ 15 := by
  unfold steps
  omega

theorem nibble_hi {s : Nat} (h : s ≤ 15) :
    u16 (u32 (s <<< RMIIDCTL_TXDLYCTRL_OFFSET) &&& RMIIDCTL_TXDLYCTRL_MASK) = s <<< 4 := by
  interval_cases s <;> decide

theorem nibble_lo {s : Nat} (h : s ≤ 15) :
    u16 (u32 (s <<< RMIIDCTL_RXDLYCTRL_OFFSET) &&& RMIIDCTL_RXDLYCTRL_MASK) = s := by
  interval_cases s <;> decide

theorem clkDelayVal_eq {tx rx : Nat} (htx : tx ≤ 4000) (hrx : rx ≤ 4000) :
    clkDelayVal tx rx = (steps tx <<< 4) ||| steps rx := by
  unfold clkDelayVal
  simp only [delayCtrl_eq_steps htx, delayCtrl_eq_steps hrx, nibble_hi (steps_le htx),
    nibble_lo (steps_le hrx)]

theorem clkDelayVal_lt {tx rx : Nat} (htx : tx ≤ 4000) (hrx : rx ≤ 4000) :
    (steps tx <<< 4) ||| steps rx < 65536 := by
  have h1 := steps_le htx
  have h2 := steps_le hrx
  generalize steps tx = s at *
  generalize steps rx = t at *
  interval_cases s <;> interval_cases t <;> decide

theorem impedanceVal_eq {z : Nat} (h1 : 35000 ≤ z) (h2 : z ≤ 70000) :
    impedanceVal z = rawImpedance z := by
  unfold impedanceVal rawImpedance u32 IOMUXCFG_IOIMPEDANCE_RANGE IOMUXCFG_IOIMPEDANCE_MAX
    IOMUXCFG_IOIMPEDANCE_MIN IOMUXCFG_IOIMPEDANCE_MASK
  have hz : z % 4294967296 = z := by omega
  simp only [hz]
  omega

theorem rawImpedance_le {z : Nat} (h1 : 35000 ≤ z) : rawImpedance z ≤ 31 := by
  unfold rawImpedance
  omega

/-! ## Lemmas on the reads of `Ethernet_config` and on rejected input -/

theorem transportRead_bus (b : Bus) (a reg : Nat) :
    (transportRead b a reg).bus =
      { b with faults := b.faults.tail, trace := b.trace ++ [BusOp.read a reg] } := by
  unfold transportRead
  rcases hf : b.faults with _ | ⟨f, rest⟩
  · simp [hf]
  · cases f <;> simp

/-- Closed form of `Ethernet_config`: two reads, then one write of the basic
control register. -/
theorem Ethernet_config_eq (b : Bus) :
    Ethernet_config b =
      { b with
        regs := fun p r => if p = 1 ∧ r = 0x00 then 0x1200 else b.regs p r
        faults := b.faults.tail.tail
        trace := b.trace ++ [BusOp.read 1 0x02, BusOp.read 1 0x03, BusOp.write 1 0x00 0x1200] } := by
  have hne : LAN8720_BMCR ≠ PHY_MMD_DR := by decide
  have hv : u16 (u16 (BMCR_AUTO_NEG_ENABLE ||| BMCR_RESTART_AUTO_NEG)) = 0x1200 := by decide
  unfold Ethernet_config lan8720_read_reg lan8720_write_reg
  simp only []
  rw [transportWrite_direct _ _ _ _ hne, transportRead_bus, transportRead_bus, hv]
  simp [ENET_PHY_ADDR, LAN8720_BMCR, LAN8720_PHYID1, LAN8720_PHYID2]

theorem setClkDelay_rejects (b : Bus) (hPhy : EnetPhy_Obj) {txDelay rxDelay : Nat}
    (htx : txDelay < 4294967296) (hrx : rxDelay < 4294967296)
    (h : 4000 < txDelay ∨ 4000 < rxDelay) :
    Lan8720_setClkDelay b hPhy txDelay rxDelay = (ENETPHY_EINVALIDPARAMS, b) := by
  have hn : ¬ (u32 txDelay ≤ RMIIDCTL_DELAY_MAX ∧ u32 rxDelay ≤ RMIIDCTL_DELAY_MAX) := by
    unfold u32 RMIIDCTL_DELAY_MAX; omega
  unfold Lan8720_setClkDelay
  rw [if_neg hn]

theorem setOutputImpedance_rejects (b : Bus) (hPhy : EnetPhy_Obj) {z : Nat}
    (hz : z < 4294967296) (h : z < 35000 ∨ 70000 < z) :
    Lan8720_setOutputImpedance b hPhy z = (ENETPHY_EINVALIDPARAMS, b) := by
  have hn : ¬ (u32 z ≥ IOMUXCFG_IOIMPEDANCE_MIN ∧ u32 z ≤ IOMUXCFG_IOIMPEDANCE_MAX) := by
    unfold u32 IOMUXCFG_IOIMPEDANCE_MIN IOMUXCFG_IOIMPEDANCE_MAX; omega
  unfold Lan8720_setOutputImpedance
  rw [if_neg hn]

theorem txFifoDepthSel_bad {depth : Nat} (hd : depth < 256)
    (h : ¬ (depth = 3 ∨ depth = 4 ∨ depth = 6 ∨ depth = 8)) :
    txFifoDepthSel depth = (ENETPHY_EINVALIDPARAMS, 0) := by
  have e : u8 depth = depth := Nat.mod_eq_of_lt hd
  unfold txFifoDepthSel
  rw [e]
  split_ifs <;> first | rfl | omega

theorem setTxFifoDepth_rejects (b : Bus) (hPhy : EnetPhy_Obj) {depth : Nat} (hd : depth < 256)
    (h : ¬ (depth = 3 ∨ depth = 4 ∨ depth = 6 ∨ depth = 8)) :
    Lan8720_setTxFifoDepth b hPhy depth = (ENETPHY_EINVALIDPARAMS, b) := by
  unfold Lan8720_setTxFifoDepth
  simp [txFifoDepthSel_bad hd h]

theorem txFifoDepthSel_good {depth : Nat} (h : depth = 3 ∨ depth = 4 ∨ depth = 6 ∨ depth = 8) :
    (txFifoDepthSel depth).1 = ENETPHY_SOK ∧ (txFifoDepthSel depth).2 &&& 0xC000 =
      (txFifoDepthSel depth).2 := by
  rcases h with rfl | rfl | rfl | rfl <;> decide

theorem nibbles_of_packed {s t : Nat} (hs : s ≤ 15) (ht : t ≤ 15) :
    (((s <<< 4) ||| t) >>> 4) &&& 0xF = s ∧ ((s <<< 4) ||| t) &&& 0xF = t := by
  interval_cases s <;> interval_cases t <;> decide

/-! ## Lemmas on failing reads, single bits and the reset handshake -/

theorem faults_of_not_nextReadOk (b : Bus) (h : b.nextReadOk = false) :
    ∃ g rest, b.faults = some g :: rest := by
  unfold Bus.nextReadOk at h
  rcases hf : b.faults with _ | ⟨f, rest⟩
  · simp [hf] at h
  · cases f with
    | none => simp [hf] at h
    | some g => exact ⟨g, rest, rfl⟩

theorem nextReadOk_of_faults (b : Bus) (g : Nat) (rest : List (Option Nat))
    (h : b.faults = some g :: rest) : b.nextReadOk = false := by
  simp [Bus.nextReadOk, h]

theorem nextReadOk_of_readsOk (b : Bus) (n : Nat) (h : b.readsOk (n + 1) = true) :
    b.nextReadOk = true := by
  unfold Bus.readsOk at h
  unfold Bus.nextReadOk
  rcases hf : b.faults with _ | ⟨f, rest⟩
  · rfl
  · cases f with
    | none => rfl
    | some g => simp [hf] at h

theorem readsOk_tail (b c : Bus) (n : Nat) (h : b.readsOk (n + 1) = true)
    (hc : c.faults = b.faults.tail) : c.readsOk n = true := by
  unfold Bus.readsOk at h ⊢
  rw [hc]
  rcases hf : b.faults with _ | ⟨f, rest⟩
  · simp
  · rw [hf] at h
    simp only [List.take_succ_cons, List.all_cons, Bool.and_eq_true] at h
    simpa using h.2

/-- The extended registers after `Lan8720_rmwExtReg`, whether its read
succeeds or not. -/
theorem rmwExtReg_ext (b : Bus) (hPhy : EnetPhy_Obj) (reg mask val a r : Nat) :
    (Lan8720_rmwExtReg b hPhy reg mask val).ext a r =
      if b.nextReadOk = true ∧ a = hPhy.addr ∧ r = u16 (u32 reg) then
        rmwMerge (u16 (b.ext hPhy.addr (u16 (u32 reg)))) mask val
      else b.ext a r := by
  by_cases hok : b.nextReadOk = true
  · rw [rmwExtReg_ok_eq b hPhy reg mask val hok]
    simp [hok]
  · have hno : b.nextReadOk = false := by simpa using hok
    obtain ⟨g, rest, hf⟩ := faults_of_not_nextReadOk b hno
    rw [rmwExtReg_fail_eq b hPhy reg mask val g rest hf]
    simp [hno]

/-- The bus operations of `Lan8720_rmwExtReg`, whether its read succeeds or
not. -/
theorem rmwExtReg_trace (b : Bus) (hPhy : EnetPhy_Obj) (reg mask val : Nat) :
    (Lan8720_rmwExtReg b hPhy reg mask val).trace =
      b.trace ++ [BusOp.write hPhy.addr PHY_MMD_CR 0x1F,
          BusOp.write hPhy.addr PHY_MMD_DR (u16 (u32 reg)),
          BusOp.write hPhy.addr PHY_MMD_CR 0x401F,
          BusOp.read hPhy.addr PHY_MMD_DR] ++
        (if b.nextReadOk = true then
          [BusOp.write hPhy.addr PHY_MMD_CR 0x401F,
            BusOp.write hPhy.addr PHY_MMD_DR
              (rmwMerge (u16 (b.ext hPhy.addr (u16 (u32 reg)))) mask val)]
        else []) := by
  by_cases hok : b.nextReadOk = true
  · rw [rmwExtReg_ok_eq b hPhy reg mask val hok]
    simp [hok]
  · have hno : b.nextReadOk = false := by simpa using hok
    obtain ⟨g, rest, hf⟩ := faults_of_not_nextReadOk b hno
    rw [rmwExtReg_fail_eq b hPhy reg mask val g rest hf]
    simp [hno]

theorem rmwExtReg_regs (b : Bus) (hPhy : EnetPhy_Obj) (reg mask val : Nat) :
    (Lan8720_rmwExtReg b hPhy reg mask val).regs =
      fun a r => if a = hPhy.addr ∧ r = PHY_MMD_CR then 0x401F else b.regs a r := by
  by_cases hok : b.nextReadOk = true
  · rw [rmwExtReg_ok_eq b hPhy reg mask val hok]
  · have hno : b.nextReadOk = false := by simpa using hok
    obtain ⟨g, rest, hf⟩ := faults_of_not_nextReadOk b hno
    rw [rmwExtReg_fail_eq b hPhy reg mask val g rest hf]

theorem rmwExtReg_faults (b : Bus) (hPhy : EnetPhy_Obj) (reg mask val : Nat) :
    (Lan8720_rmwExtReg b hPhy reg mask val).faults = b.faults.tail := by
  by_cases hok : b.nextReadOk = true
  · rw [rmwExtReg_ok_eq b hPhy reg mask val hok]
  · have hno : b.nextReadOk = false := by simpa using hok
    obtain ⟨g, rest, hf⟩ := faults_of_not_nextReadOk b hno
    rw [rmwExtReg_fail_eq b hPhy reg mask val g rest hf]
    simp [hf]

/-- Masking with bit 15 gives zero exactly when bit 15 is clear. -/
theorem and_bit15_eq_zero_iff (x : Nat) : x &&& 0x8000 = 0 ↔ x.testBit 15 = false := by
  have h : (0x8000 : Nat) = 2 ^ 15 := by norm_num
  rw [h]
  constructor
  · intro h0
    have h1 : (x &&& 2 ^ 15).testBit 15 = false := by rw [h0]; exact Nat.zero_testBit 15
    rw [Nat.testBit_and, Nat.testBit_two_pow] at h1
    simpa using h1
  · intro hb
    apply Nat.eq_of_testBit_eq
    intro i
    simp only [Nat.testBit_and, Nat.testBit_two_pow, Nat.zero_testBit]
    by_cases hi : 15 = i
    · subst hi; simp [hb]
    · simp [hi]

theorem testBit_128 (i : Nat) : (128 : Nat).testBit i = decide (7 = i) := by
  have h : (128 : Nat) = 2 ^ 7 := by norm_num
  rw [h, Nat.testBit_two_pow]

theorem testBit_u16_of_lt (x : Nat) {i : Nat} (hi : i < 16) :
    (u16 x).testBit i = x.testBit i := by
  rw [testBit_u16]; simp [hi]

theorem peek_direct (c : Bus) (a reg : Nat) (h : reg ≠ PHY_MMD_DR) :
    c.peek a reg = u16 (c.regs a reg) := by
  simp [Bus.peek, h]

/-- Closed form of the second `Lan8720_reset` when its read succeeds. -/
theorem reset_ctrl_ok_eq (b : Bus) (hPhy : EnetPhy_Obj) (h : b.nextReadOk = true) :
    Lan8720_reset_ctrl b hPhy =
      { b with
        regs := fun a r =>
          if a = hPhy.addr ∧ r = 0x1F then rmwMerge (u16 (b.regs hPhy.addr 0x1F)) 0x8000 0x8000
          else b.regs a r
        faults := b.faults.tail
        trace := b.trace ++ [BusOp.read hPhy.addr 0x1F,
          BusOp.write hPhy.addr 0x1F (rmwMerge (u16 (b.regs hPhy.addr 0x1F)) 0x8000 0x8000)] } := by
  have hne : LAN8720_CTRL ≠ PHY_MMD_DR := by decide
  unfold Lan8720_reset_ctrl
  rw [rmwReg_ok_eq b hPhy _ _ _ hne h]
  rfl

/-- The second `Lan8720_isResetComplete`, when its read succeeds, reports
whether bit 15 of the global control register is clear. -/
theorem isResetComplete_ctrl_ok (c : Bus) (hPhy : EnetPhy_Obj) (h : c.nextReadOk = true) :
    (Lan8720_isResetComplete_ctrl c hPhy).1 = !(c.regs hPhy.addr 0x1F).testBit 15 := by
  have hne : LAN8720_CTRL ≠ PHY_MMD_DR := by decide
  have hreg : LAN8720_CTRL = 0x1F := rfl
  have hm : CTRL_SWRESET = 0x8000 := rfl
  unfold Lan8720_isResetComplete_ctrl EnetPhy_readReg
  simp only []
  rw [transportRead_ok _ _ _ h]
  simp only [if_true]
  rw [peek_direct _ _ _ hne]
  simp only [hreg, hm]
  cases hb : (c.regs hPhy.addr 0x1F).testBit 15
  · have := (and_bit15_eq_zero_iff (u16 (c.regs hPhy.addr 0x1F))).mpr
      (by rw [testBit_u16_of_lt _ (by decide), hb])
    simp [this]
  · have : ¬ (u16 (c.regs hPhy.addr 0x1F) &&& 0x8000 = 0) := fun h0 => by
      have h1 := (and_bit15_eq_zero_iff _).mp h0
      rw [testBit_u16_of_lt _ (by decide), hb] at h1
      cases h1
    simp [this]

/-- The first `Lan8720_isResetComplete`, when its read succeeds, reports
whether bit 15 of the basic control register is clear. -/
theorem isResetComplete_bmcr_ok (c : Bus) (hPhy : EnetPhy_Obj) (h : c.nextReadOk = true) :
    (Lan8720_isResetComplete_bmcr c hPhy).1 = !(c.regs 1 0x00).testBit 15 := by
  have hne : LAN8720_BMCR ≠ PHY_MMD_DR := by decide
  have hreg : LAN8720_BMCR = 0x00 := rfl
  have hm : BMCR_RESET = 0x8000 := rfl
  have ha : ENET_PHY_ADDR = 1 := rfl
  unfold Lan8720_isResetComplete_bmcr lan8720_read_reg
  simp only []
  rw [transportRead_ok _ _ _ h]
  simp only []
  rw [peek_direct _ _ _ hne]
  simp only [hreg, hm, ha]
  cases hb : (c.regs 1 0x00).testBit 15
  · have := (and_bit15_eq_zero_iff (u16 (c.regs 1 0x00))).mpr
      (by rw [testBit_u16_of_lt _ (by decide), hb])
    simp [this]
  · have : ¬ (u16 (c.regs 1 0x00) &&& 0x8000 = 0) := fun h0 => by
      have h1 := (and_bit15_eq_zero_iff _).mp h0
      rw [testBit_u16_of_lt _ (by decide), hb] at h1
      cases h1
    simp [this]

/-- Closed form of the first `Lan8720_reset`. -/
theorem reset_bmcr_eq (b : Bus) (hPhy : EnetPhy_Obj) :
    Lan8720_reset_bmcr b hPhy =
      { b with
        regs := fun a r => if a = 1 ∧ r = 0x00 then 0x8000 else b.regs a r
        trace := b.trace ++ [BusOp.write 1 0x00 0x8000] } := by
  have hne : LAN8720_BMCR ≠ PHY_MMD_DR := by decide
  unfold Lan8720_reset_bmcr lan8720_write_reg
  rw [transportWrite_direct _ _ _ _ hne]
  rfl

theorem rmwMerge_bit15 (data : Nat) : (rmwMerge data 0x8000 0x8000).testBit 15 = true := by
  have h : Nat.testBit 0x8000 15 = true := by decide
  rw [rmwMerge_testBit]
  simp [h]

theorem packed_lt_256 {s t : Nat} (hs : s ≤ 15) (ht : t ≤ 15) : (s <<< 4) ||| t < 256 := by
  interval_cases s <;> interval_cases t <;> decide

/-- For delays in range `Lan8720_setClkDelay` is the plain extended write of the
packed step counts. -/
theorem setClkDelay_ok_eq (b : Bus) (hPhy : EnetPhy_Obj) {tx rx : Nat} (htx : tx ≤ 4000)
    (hrx : rx ≤ 4000) :
    Lan8720_setClkDelay b hPhy tx rx =
      (ENETPHY_SOK, GenericPhy_writeExtReg b hPhy 0x86 ((steps tx <<< 4) ||| steps rx)) := by
  have hc : u32 tx ≤ RMIIDCTL_DELAY_MAX ∧ u32 rx ≤ RMIIDCTL_DELAY_MAX := by
    unfold u32 RMIIDCTL_DELAY_MAX; omega
  unfold Lan8720_setClkDelay
  rw [if_pos hc, clkDelayVal_eq htx hrx]
  rfl

/-! ## Lemmas on packed fields, the extended read and the direct read-modify-write -/

/-- Closed form of the direct read-modify-write when its read fails. -/
theorem rmwReg_fail_eq (b : Bus) (hPhy : EnetPhy_Obj) (reg mask val g : Nat)
    (rest : List (Option Nat)) (h : b.faults = some g :: rest) :
    EnetPhy_rmwReg b hPhy reg mask val =
      (ENETPHY_EFAIL,
        { b with faults := rest, trace := b.trace ++ [BusOp.read hPhy.addr reg] }) := by
  unfold EnetPhy_rmwReg EnetPhy_readReg
  simp only []
  rw [transportRead_fail _ _ _ g rest h]
  simp

/-- Closed form of the extended read when its read succeeds. -/
theorem readExtReg_ok_eq (b : Bus) (hPhy : EnetPhy_Obj) (reg : Nat) (h : b.nextReadOk = true) :
    EnetPhy_readExtReg b hPhy reg =
      { status := ENETPHY_SOK, data := u16 (b.ext hPhy.addr (u16 reg)),
        bus :=
          { regs := fun a r => if a = hPhy.addr ∧ r = PHY_MMD_CR then 0x401F else b.regs a r
            mmdAddr := fun a => if a = hPhy.addr then u16 reg else b.mmdAddr a
            ext := b.ext
            faults := b.faults.tail
            trace := b.trace ++ [BusOp.write hPhy.addr PHY_MMD_CR 0x1F,
              BusOp.write hPhy.addr PHY_MMD_DR (u16 reg),
              BusOp.write hPhy.addr PHY_MMD_CR 0x401F,
              BusOp.read hPhy.addr PHY_MMD_DR] } } := by
  have hok : (mmdSelect b hPhy.addr reg).nextReadOk = true := by
    simpa [Bus.nextReadOk, mmdSelect] using h
  unfold EnetPhy_readExtReg EnetPhy_writeReg EnetPhy_readReg
  simp only []
  rw [mmdSelect_eq, transportRead_ok _ _ _ hok, mmdSelect_peek]
  simp [mmdSelect]

theorem or_shift_eq_add (a b k : Nat) (hb : b < 2 ^ k) : b ||| (a <<< k) = a * 2 ^ k + b := by
  rw [Nat.lor_comm, Nat.shiftLeft_eq, Nat.mul_comm a (2 ^ k)]
  exact (Nat.mul_add_lt_is_or hb a).symm

theorem testBit_15 (i : Nat) : (15 : Nat).testBit i = decide (i < 4) := by
  have h : (15 : Nat) = 2 ^ 4 - 1 := by norm_num
  rw [h, Nat.testBit_two_pow_sub_one]

theorem testBit_mod_16 (m i : Nat) : (m % 16).testBit i = (decide (i < 4) && m.testBit i) := by
  have h : (16 : Nat) = 2 ^ 4 := by norm_num
  rw [h, Nat.testBit_mod_two_pow]

/-- A mode cast to 16 bits, shifted to its field and masked is the low nibble
of the mode, shifted. -/
theorem field_eq (m k : Nat) : (u16 m <<< k) &&& (15 <<< k) = (m % 16) <<< k := by
  apply Nat.eq_of_testBit_eq
  intro j
  simp only [Nat.testBit_and, Nat.testBit_shiftLeft, testBit_u16, testBit_15, testBit_mod_16]
  by_cases h1 : j ≥ k <;> by_cases h2 : j - k < 4 <;> by_cases h3 : j - k < 16 <;>
    first
    | (simp [h1, h2, h3]; done)
    | (simp [h1, h2, h3]; omega)

theorem and_15_eq_mod (x : Nat) : x &&& 0xF = x % 16 := by
  have h : (0xF : Nat) = 2 ^ 4 - 1 := by norm_num
  rw [h, Nat.and_pow_two_sub_one_eq_mod]

theorem and_255_eq_mod (x : Nat) : x &&& 0xFF = x % 256 := by
  have h : (0xFF : Nat) = 2 ^ 8 - 1 := by norm_num
  rw [h, Nat.and_pow_two_sub_one_eq_mod]

/-- The GPIO field value as a number: the low nibble of each mode in its
place. -/
theorem gpioMuxVal_eq (g0 g1 : Nat) : gpioMuxVal g0 g1 = g0 % 16 + 16 * (g1 % 16) := by
  have e0 : GPIOMUXCTRL_GPIO0_MASK = 15 <<< 0 := by decide
  have e1 : GPIOMUXCTRL_GPIO1_MASK = 15 <<< 4 := by decide
  have h0 : g0 % 16 < 2 ^ 4 := by norm_num; exact Nat.mod_lt _ (by norm_num)
  unfold gpioMuxVal GPIOMUXCTRL_GPIO0_OFFSET GPIOMUXCTRL_GPIO1_OFFSET
  rw [e0, e1, field_eq, field_eq, Nat.shiftLeft_zero, or_shift_eq_add _ _ 4 h0]
  omega

/-- The LED word as a number: the low nibble of each mode in its place. -/
theorem ledVal_eq (l : Fin 4 → Nat) :
    ledVal l = l 0 % 16 + 16 * (l 1 % 16) + 256 * (l 2 % 16) + 4096 * (l 3 % 16) := by
  have e0 : LEDCR1_LED0SEL_MASK = 15 <<< 0 := by decide
  have e1 : LEDCR1_LED1SEL_MASK = 15 <<< 4 := by decide
  have e2 : LEDCR1_LED2SEL_MASK = 15 <<< 8 := by decide
  have e3 : LEDCR1_LED3SEL_MASK = 15 <<< 12 := by decide
  have h0 : l 0 % 16 < 16 := Nat.mod_lt _ (by norm_num)
  have h1 : l 1 % 16 < 16 := Nat.mod_lt _ (by norm_num)
  have h2 : l 2 % 16 < 16 := Nat.mod_lt _ (by norm_num)
  have h3 : l 3 % 16 < 16 := Nat.mod_lt _ (by norm_num)
  unfold ledVal LEDCR1_LED0SEL_OFFSET LEDCR1_LED1SEL_OFFSET LEDCR1_LED2SEL_OFFSET
    LEDCR1_LED3SEL_OFFSET
  rw [e0, e1, e2, e3, field_eq, field_eq, field_eq, field_eq, Nat.shiftLeft_zero,
    or_shift_eq_add _ _ 4 (by norm_num; exact h0)]
  rw [or_shift_eq_add _ _ 8 (by norm_num; omega)]
  rw [or_shift_eq_add _ _ 12 (by norm_num; omega)]
  unfold u16
  omega

/-- A read-modify-write under the full mask stores the value. -/
theorem rmwMerge_full (data val : Nat) : rmwMerge data 0xFFFF val = u16 val := by
  apply Nat.eq_of_testBit_eq
  intro i
  rw [rmwMerge_testBit, testBit_u16, testBit_65535]
  by_cases hi : i < 16 <;> simp [hi]

/-- A read-modify-write of one bit under the mask of that bit sets the bit. -/
theorem rmwMerge_set_bit (data k : Nat) (hd : data < 65536) (hk : k < 16) :
    rmwMerge data (2 ^ k) (2 ^ k) = data ||| 2 ^ k := by
  apply Nat.eq_of_testBit_eq
  intro i
  rw [rmwMerge_testBit, Nat.testBit_or, Nat.testBit_two_pow]
  by_cases hi : i < 16
  · by_cases hki : k = i <;> simp [hi, hki]
  · have h1 := testBit_of_lt_65536 hd (Nat.le_of_not_lt hi)
    have hki : ¬ k = i := by omega
    simp [hi, h1, hki]

/-! ## Closed forms of the auto-MDIX, FLD-strap and loopback operations -/

/-- Closed form of `Lan8720_enableAutoMdix` with `enable` false, when its read
succeeds. -/
theorem enableAutoMdix_false_eq (b : Bus) (hPhy : EnetPhy_Obj) (hok : b.nextReadOk = true) :
    Lan8720_enableAutoMdix b hPhy false =
      { b with
        regs := fun a r =>
          if a = hPhy.addr ∧ r = 0x1B then rmwMerge (u16 (b.regs hPhy.addr 0x1B)) 0x60 0x20
          else b.regs a r
        faults := b.faults.tail
        trace := b.trace ++ [BusOp.read hPhy.addr 0x1B,
          BusOp.write hPhy.addr 0x1B (rmwMerge (u16 (b.regs hPhy.addr 0x1B)) 0x60 0x20)] } := by
  have hne : LAN8720_PHYCR ≠ PHY_MMD_DR := by decide
  unfold Lan8720_enableAutoMdix
  simp only [Bool.false_eq_true, if_false]
  rw [rmwReg_ok_eq b hPhy _ _ _ hne hok]
  rfl

/-- Closed form of `Lan8720_enableAutoMdix` with `enable` true, when its two
reads succeed. -/
theorem enableAutoMdix_true_eq (b : Bus) (hPhy : EnetPhy_Obj) (hok : b.readsOk 2 = true) :
    Lan8720_enableAutoMdix b hPhy true =
      { b with
        regs := fun a r =>
          if a = hPhy.addr ∧ r = 0x1E then rmwMerge (u16 (b.regs hPhy.addr 0x1E)) 0x200 0x200
          else if a = hPhy.addr ∧ r = 0x1B then
            rmwMerge (u16 (b.regs hPhy.addr 0x1B)) 0x60 0x40
          else b.regs a r
        faults := b.faults.tail.tail
        trace := b.trace ++ [BusOp.read hPhy.addr 0x1B,
          BusOp.write hPhy.addr 0x1B (rmwMerge (u16 (b.regs hPhy.addr 0x1B)) 0x60 0x40),
          BusOp.read hPhy.addr 0x1E,
          BusOp.write hPhy.addr 0x1E (rmwMerge (u16 (b.regs hPhy.addr 0x1E)) 0x200 0x200)] } := by
  have hne1 : LAN8720_PHYCR ≠ PHY_MMD_DR := by decide
  have hne2 : LAN8720_CFG3 ≠ PHY_MMD_DR := by decide
  have h1 : b.nextReadOk = true := nextReadOk_of_readsOk b 1 hok
  unfold Lan8720_enableAutoMdix
  simp only [if_true]
  rw [rmwReg_ok_eq b hPhy _ _ _ hne1 h1]
  simp only []
  rw [rmwReg_ok_eq _ hPhy _ _ _ hne2
    (nextReadOk_of_readsOk _ 0 (readsOk_tail b _ 1 hok rfl))]
  simp [LAN8720_CFG3, LAN8720_PHYCR, CFG3_ROBUSTAUTOMDIX, PHYCR_MDICROSSOVER_MASK,
    PHYCR_MDICROSSOVER_AUTO]

/-- Closed form of `Lan8720_fixFldStrap` when the strap bit reads as clear. -/
theorem fixFldStrap_clear_eq (b : Bus) (hPhy : EnetPhy_Obj) (hok : b.nextReadOk = true)
    (hS : u16 (b.ext hPhy.addr 0x6F) &&& 0x0400 = 0) :
    Lan8720_fixFldStrap b hPhy =
      { regs := fun a r => if a = hPhy.addr ∧ r = PHY_MMD_CR then 0x401F else b.regs a r
        mmdAddr := fun a => if a = hPhy.addr then 0x6F else b.mmdAddr a
        ext := b.ext
        faults := b.faults.tail
        trace := b.trace ++ [BusOp.write hPhy.addr PHY_MMD_CR 0x1F,
          BusOp.write hPhy.addr PHY_MMD_DR 0x6F,
          BusOp.write hPhy.addr PHY_MMD_CR 0x401F,
          BusOp.read hPhy.addr PHY_MMD_DR] } := by
  have hreg : u16 LAN8720_STRAPSTS2 = 0x6F := by decide
  have hm : STRAPSTS2_FLD_MASK = 0x0400 := rfl
  unfold Lan8720_fixFldStrap
  simp only []
  rw [readExtReg_ok_eq b hPhy _ hok, hreg, hm]
  simp only [hS, ne_eq, not_true_eq_false, if_false]

/-- Closed form of `Lan8720_fixFldStrap` when the strap bit reads as set and
both reads succeed. -/
theorem fixFldStrap_set_eq (b : Bus) (hPhy : EnetPhy_Obj) (hok : b.readsOk 2 = true)
    (hS : u16 (b.ext hPhy.addr 0x6F) &&& 0x0400 ≠ 0) :
    Lan8720_fixFldStrap b hPhy =
      { regs := fun a r => if a = hPhy.addr ∧ r = PHY_MMD_CR then 0x401F else b.regs a r
        mmdAddr := fun a => if a = hPhy.addr then 0x70 else b.mmdAddr a
        ext := fun a r =>
          if a = hPhy.addr ∧ r = 0x70 then rmwMerge (u16 (b.ext hPhy.addr 0x70)) 0x0007 1
          else b.ext a r
        faults := b.faults.tail.tail
        trace := b.trace ++ [BusOp.write hPhy.addr PHY_MMD_CR 0x1F,
          BusOp.write hPhy.addr PHY_MMD_DR 0x6F,
          BusOp.write hPhy.addr PHY_MMD_CR 0x401F,
          BusOp.read hPhy.addr PHY_MMD_DR,
          BusOp.write hPhy.addr PHY_MMD_CR 0x1F,
          BusOp.write hPhy.addr PHY_MMD_DR 0x70,
          BusOp.write hPhy.addr PHY_MMD_CR 0x401F,
          BusOp.read hPhy.addr PHY_MMD_DR,
          BusOp.write hPhy.addr PHY_MMD_CR 0x401F,
          BusOp.write hPhy.addr PHY_MMD_DR (rmwMerge (u16 (b.ext hPhy.addr 0x70)) 0x0007 1)] } := by
  have hreg : u16 LAN8720_STRAPSTS2 = 0x6F := by decide
  have hreg2 : u16 (u32 LAN8720_FLDTHRCFG) = 0x70 := by decide
  have hm : STRAPSTS2_FLD_MASK = 0x0400 := rfl
  have hm2 : FLDTHRCFG_FLDTHR_MASK = 0x0007 := rfl
  have h1 : b.nextReadOk = true := nextReadOk_of_readsOk b 1 hok
  unfold Lan8720_fixFldStrap
  simp only []
  rw [readExtReg_ok_eq b hPhy _ h1, hreg, hm]
  simp only [hS, ne_eq, not_false_eq_true, if_true]
  rw [rmwExtReg_ok_eq _ hPhy _ _ _
    (nextReadOk_of_readsOk _ 0 (readsOk_tail b _ 1 hok rfl)), hreg2, hm2]
  simp only [Bus.mk.injEq, List.append_assoc, List.cons_append, List.nil_append, and_true,
    true_and]
  refine ⟨?_, ?_⟩
  · funext a r; split_ifs <;> rfl
  · funext a; split_ifs <;> rfl

/-- The second `Lan8720_isResetComplete` returns false when its read fails,
whatever value the read leaves behind. -/
theorem isResetComplete_ctrl_fail (c : Bus) (hPhy : EnetPhy_Obj) (g : Nat)
    (rest : List (Option Nat)) (h : c.faults = some g :: rest) :
    (Lan8720_isResetComplete_ctrl c hPhy).1 = false := by
  unfold Lan8720_isResetComplete_ctrl EnetPhy_readReg
  simp only []
  rw [transportRead_fail _ _ _ g rest h]
  simp

/-- The first `Lan8720_isResetComplete`, when its read fails, reports whether
bit 15 of the value left in its variable is clear. -/
theorem isResetComplete_bmcr_fail (c : Bus) (hPhy : EnetPhy_Obj) (g : Nat)
    (rest : List (Option Nat)) (h : c.faults = some g :: rest) :
    (Lan8720_isResetComplete_bmcr c hPhy).1 = decide (u16 g &&& 0x8000 = 0) := by
  unfold Lan8720_isResetComplete_bmcr lan8720_read_reg
  simp only []
  rw [transportRead_fail _ _ _ g rest h]
  rfl

/-! ## Claims -/

/-- C9: for every extended register, prior value V, mask M and value X (all
16-bit), when the bus read succeeds `Lan8720_rmwExtReg` ends with a write of
exactly `(V & ~M) | (X & M)` to the MMD data register, which leaves that value
in the extended register: every bit outside M keeps its prior value and every
bit inside M takes the bit of X. -/
theorem rmwExtReg_writes_masked_merge (b : Bus) (hPhy : EnetPhy_Obj) (reg mask val : Nat)
    (hreg : reg < 65536) (hmask : mask < 65536) (hV : b.ext hPhy.addr reg < 65536)
    (hok : b.nextReadOk = true) :
    (Lan8720_rmwExtReg b hPhy reg mask val).trace.getLast? =
        some (BusOp.write hPhy.addr PHY_MMD_DR
          ((b.ext hPhy.addr reg &&& (0xFFFF ^^^ mask)) ||| (val &&& mask))) ∧
      (Lan8720_rmwExtReg b hPhy reg mask val).ext hPhy.addr reg =
        (b.ext hPhy.addr reg &&& (0xFFFF ^^^ mask)) ||| (val &&& mask) ∧
      ∀ i, ((Lan8720_rmwExtReg b hPhy reg mask val).ext hPhy.addr reg).testBit i =
        if mask.testBit i then val.testBit i else (b.ext hPhy.addr reg).testBit i := by
  have hr : u16 (u32 reg) = reg := by unfold u16 u32; omega
  have hm := rmwMerge_eq _ _ val hV hmask
  rw [rmwExtReg_ok_eq b hPhy reg mask val hok]
  simp only [hr, u16_of_lt hV, and_self, if_true]
  refine ⟨?_, hm, ?_⟩
  · simp [List.getLast?_append, hm]
  · intro i
    rw [rmwMerge_testBit]
    by_cases hi : i < 16
    · simp [hi]
    · have h1 := testBit_of_lt_65536 hV (Nat.le_of_not_lt hi)
      have h2 := testBit_of_lt_65536 hmask (Nat.le_of_not_lt hi)
      simp [hi, h1, h2]

/-- C9, at a concrete input: register 0x170 holding 0xABCD, mask 0x00F0,
value 0x1234. -/
theorem rmwExtReg_writes_masked_merge_witness :
    (Lan8720_rmwExtReg { Bus.zero with ext := fun _ _ => 0xABCD } ⟨1⟩ 0x170 0x00F0 0x1234).ext
        1 0x170 = 0xAB3D :=
  (rmwExtReg_writes_masked_merge { Bus.zero with ext := fun _ _ => 0xABCD } ⟨1⟩ 0x170 0x00F0
    0x1234 (by decide) (by decide) (by decide) (by decide)).2.1

/-- C10: `Lan8720_isPhyDevSupported` returns true exactly for the triple
(0x000001C1, 0x27, 0x00); with two fields matching, the result is true only
when the third matches too. -/
theorem isPhyDevSupported_iff_exact_triple (hPhy : EnetPhy_Obj) (version : EnetPhy_Version) :
    (Lan8720_isPhyDevSupported hPhy version = true ↔
        (version.oui = 0x000001C1 ∧ version.model = 0x27 ∧ version.revision = 0x00)) ∧
      (∀ x, Lan8720_isPhyDevSupported hPhy ⟨x, 0x27, 0x00⟩ = decide (x = 0x000001C1)) ∧
      (∀ x, Lan8720_isPhyDevSupported hPhy ⟨0x000001C1, x, 0x00⟩ = decide (x = 0x27)) ∧
      (∀ x, Lan8720_isPhyDevSupported hPhy ⟨0x000001C1, 0x27, x⟩ = decide (x = 0x00)) := by
  refine ⟨?_, ?_, ?_, ?_⟩
  · simp [Lan8720_isPhyDevSupported, LAN8720_OUI, LAN8720_MODEL, LAN8720_REV]
  · intro x; by_cases h : x = 449 <;>
      simp [Lan8720_isPhyDevSupported, LAN8720_OUI, LAN8720_MODEL, LAN8720_REV, h]
  · intro x; by_cases h : x = 39 <;>
      simp [Lan8720_isPhyDevSupported, LAN8720_OUI, LAN8720_MODEL, LAN8720_REV, h]
  · intro x; by_cases h : x = 0 <;>
      simp [Lan8720_isPhyDevSupported, LAN8720_OUI, LAN8720_MODEL, LAN8720_REV, h]

/-- C3: for txDelay and rxDelay in 0..4000, `Lan8720_setClkDelay` returns
success and its bus operations are the extended write of exactly
`(steps(txDelay) << 4) | steps(rxDelay)` to register 0x86, which then holds
that value; each steps value is at most 15, so the masks 0x00F0 and 0x000F do
not truncate it; steps(4000) = 15, steps(1) = 0, steps(0) = 0. -/
theorem setClkDelay_writes_steps (b : Bus) (hPhy : EnetPhy_Obj) (txDelay rxDelay : Nat)
    (htx : txDelay ≤ 4000) (hrx : rxDelay ≤ 4000) :
    (Lan8720_setClkDelay b hPhy txDelay rxDelay).1 = ENETPHY_SOK ∧
      (Lan8720_setClkDelay b hPhy txDelay rxDelay).2.trace =
        b.trace ++ [BusOp.write hPhy.addr PHY_MMD_CR 0x1F,
          BusOp.write hPhy.addr PHY_MMD_DR 0x86,
          BusOp.write hPhy.addr PHY_MMD_CR 0x401F,
          BusOp.write hPhy.addr PHY_MMD_DR ((steps txDelay <<< 4) ||| steps rxDelay)] ∧
      (Lan8720_setClkDelay b hPhy txDelay rxDelay).2.ext hPhy.addr 0x86 =
        (steps txDelay <<< 4) ||| steps rxDelay ∧
      steps txDelay ≤ 15 ∧ steps rxDelay ≤ 15 ∧
      (steps txDelay <<< 4) &&& 0x00F0 = steps txDelay <<< 4 ∧
      steps rxDelay &&& 0x000F = steps rxDelay ∧
      steps 4000 = 15 ∧ steps 1 = 0 ∧ steps 0 = 0 := by
  have h1 : u32 txDelay ≤ RMIIDCTL_DELAY_MAX ∧ u32 rxDelay ≤ RMIIDCTL_DELAY_MAX := by
    unfold u32 RMIIDCTL_DELAY_MAX; omega
  have hs := steps_le htx
  have ht := steps_le hrx
  have hv := u16_of_lt (clkDelayVal_lt htx hrx)
  have hreg : u16 LAN8720_RMIIDCTL = 0x86 := by decide
  unfold Lan8720_setClkDelay
  rw [if_pos h1, writeExtReg_eq, clkDelayVal_eq htx hrx, hv, hreg]
  refine ⟨rfl, rfl, by simp, hs, ht, ?_, ?_, by decide, by decide, by decide⟩
  · generalize steps txDelay = s at hs
    interval_cases s <;> decide
  · generalize steps rxDelay = t at ht
    interval_cases t <;> decide

/-- C3, at txDelay = 4000 and rxDelay = 1: the register ends with 0xF0. -/
theorem setClkDelay_writes_steps_witness :
    (Lan8720_setClkDelay Bus.zero ⟨1⟩ 4000 1).1 = ENETPHY_SOK ∧
      (Lan8720_setClkDelay Bus.zero ⟨1⟩ 4000 1).2.ext 1 0x86 = 0xF0 :=
  have h := setClkDelay_writes_steps Bus.zero ⟨1⟩ 4000 1 (by decide) (by decide)
  ⟨h.1, h.2.2.1⟩

/-- C4: for 32-bit delays, `Lan8720_setClkDelay` returns the invalid-parameter
error exactly when txDelay > 4000 or rxDelay > 4000; it then leaves the bus as
it was (no bus operation, so no register write), also when the other delay is
valid; with both delays at most 4000 it returns success. -/
theorem setClkDelay_invalid_iff (b : Bus) (hPhy : EnetPhy_Obj) (txDelay rxDelay : Nat)
    (htx : txDelay < 4294967296) (hrx : rxDelay < 4294967296) :
    ((Lan8720_setClkDelay b hPhy txDelay rxDelay).1 = ENETPHY_EINVALIDPARAMS ↔
        (4000 < txDelay ∨ 4000 < rxDelay)) ∧
      ((4000 < txDelay ∨ 4000 < rxDelay) →
        (Lan8720_setClkDelay b hPhy txDelay rxDelay).2 = b) ∧
      ((txDelay ≤ 4000 ∧ rxDelay ≤ 4000) →
        (Lan8720_setClkDelay b hPhy txDelay rxDelay).1 = ENETPHY_SOK) := by
  have e1 : u32 txDelay = txDelay := Nat.mod_eq_of_lt htx
  have e2 : u32 rxDelay = rxDelay := Nat.mod_eq_of_lt hrx
  unfold Lan8720_setClkDelay
  rw [e1, e2]
  unfold RMIIDCTL_DELAY_MAX
  by_cases h : txDelay ≤ 4000 ∧ rxDelay ≤ 4000
  · rw [if_pos h]
    refine ⟨⟨fun h1 => (by cases h1), fun h1 => (by omega)⟩, fun h1 => by omega, fun _ => rfl⟩
  · rw [if_neg h]
    refine ⟨⟨fun _ => by omega, fun _ => rfl⟩, fun _ => rfl, fun h1 => absurd h1 h⟩

/-- C4, at txDelay = 4001 with a valid rxDelay = 250. -/
theorem setClkDelay_invalid_iff_witness :
    (Lan8720_setClkDelay Bus.zero ⟨1⟩ 4001 250).1 = ENETPHY_EINVALIDPARAMS ∧
      (Lan8720_setClkDelay Bus.zero ⟨1⟩ 4001 250).2.trace = [] :=
  have h := setClkDelay_invalid_iff Bus.zero ⟨1⟩ 4001 250 (by decide) (by decide)
  ⟨h.1.mpr (Or.inl (by decide)), by rw [h.2.1 (Or.inl (by decide))]; rfl⟩

/-- C5: for every impedance z in 35000..70000, `Lan8720_setOutputImpedance`
returns success; the raw code it computes in 32-bit arithmetic equals
`floor(((70000 - z) * 31 + 17500) / 35000)` over the unbounded naturals, lies
in 0..31, is 31 at z = 35000 and 0 at z = 70000; when the bus read succeeds the
code is written by read-modify-write to extended register 0x170, whose low
5 bits become the code while all its other bits keep their value. -/
theorem setOutputImpedance_writes_raw_code (b : Bus) (hPhy : EnetPhy_Obj) (z : Nat)
    (hlo : 35000 ≤ z) (hhi : z ≤ 70000) (hV : b.ext hPhy.addr 0x170 < 65536) :
    (Lan8720_setOutputImpedance b hPhy z).1 = ENETPHY_SOK ∧
      impedanceVal z = rawImpedance z ∧
      rawImpedance z ≤ 31 ∧ rawImpedance z &&& 0x001F = rawImpedance z ∧
      rawImpedance 35000 = 31 ∧ rawImpedance 70000 = 0 ∧
      (b.nextReadOk = true →
        (Lan8720_setOutputImpedance b hPhy z).2.trace.getLast? =
            some (BusOp.write hPhy.addr PHY_MMD_DR
              ((b.ext hPhy.addr 0x170 &&& 0xFFE0) ||| rawImpedance z)) ∧
          (Lan8720_setOutputImpedance b hPhy z).2.ext hPhy.addr 0x170 =
            (b.ext hPhy.addr 0x170 &&& 0xFFE0) ||| rawImpedance z ∧
          (Lan8720_setOutputImpedance b hPhy z).2.ext hPhy.addr 0x170 &&& 0x001F =
            rawImpedance z ∧
          (Lan8720_setOutputImpedance b hPhy z).2.ext hPhy.addr 0x170 &&& 0xFFE0 =
            b.ext hPhy.addr 0x170 &&& 0xFFE0) := by
  have h1 : u32 z ≥ IOMUXCFG_IOIMPEDANCE_MIN ∧ u32 z ≤ IOMUXCFG_IOIMPEDANCE_MAX := by
    unfold u32 IOMUXCFG_IOIMPEDANCE_MIN IOMUXCFG_IOIMPEDANCE_MAX; omega
  have hr := rawImpedance_le hlo
  have hand : rawImpedance z &&& 0x001F = rawImpedance z := by
    generalize rawImpedance z = r at hr
    interval_cases r <;> decide
  have hreg : u16 (u32 LAN8720_IOMUXCFG) = 0x170 := by decide
  have hnot : (0xFFFF ^^^ IOMUXCFG_IOIMPEDANCE_MASK) = 0xFFE0 := by decide
  have hmask : IOMUXCFG_IOIMPEDANCE_MASK = 0x001F := rfl
  have hml : IOMUXCFG_IOIMPEDANCE_MASK < 65536 := by decide
  unfold Lan8720_setOutputImpedance
  rw [if_pos h1, impedanceVal_eq hlo hhi]
  refine ⟨rfl, rfl, hr, hand, by decide, by decide, ?_⟩
  intro hok
  have hm := rmwMerge_eq _ _ (rawImpedance z) hV hml
  rw [hnot, hmask, hand] at hm
  have ha := rmwMerge_and_mask (b.ext hPhy.addr 0x170) IOMUXCFG_IOIMPEDANCE_MASK
    (rawImpedance z) hml
  have hb := rmwMerge_and_not_mask (b.ext hPhy.addr 0x170) IOMUXCFG_IOIMPEDANCE_MASK
    (rawImpedance z) hV
  rw [hnot] at hb
  rw [hmask, hand] at ha
  rw [hmask] at hb
  rw [rmwExtReg_ok_eq b hPhy _ _ _ hok]
  simp only [hreg, u16_of_lt hV, and_self, if_true, hmask]
  refine ⟨?_, hm, ?_, ?_⟩
  · simp [List.getLast?_append, hm]
  · exact ha
  · exact hb

/-- C5, at z = 52500 on a register that holds 0xFFFF: the code is 16 and the
register ends with 0xFFF0. -/
theorem setOutputImpedance_writes_raw_code_witness :
    (Lan8720_setOutputImpedance { Bus.zero with ext := fun _ _ => 0xFFFF } ⟨1⟩ 52500).1 =
        ENETPHY_SOK ∧
      (Lan8720_setOutputImpedance { Bus.zero with ext := fun _ _ => 0xFFFF } ⟨1⟩ 52500).2.ext
        1 0x170 = 0xFFF0 :=
  have h := setOutputImpedance_writes_raw_code { Bus.zero with ext := fun _ _ => 0xFFFF } ⟨1⟩
    52500 (by decide) (by decide) (by decide)
  ⟨h.1, (h.2.2.2.2.2.2 rfl).2.1⟩

/-- C6: for a 32-bit impedance, `Lan8720_setOutputImpedance` returns the
invalid-parameter error exactly when the impedance is below 35000 or above
70000, and then leaves the bus as it was: no register access, every register
unchanged. -/
theorem setOutputImpedance_invalid_iff (b : Bus) (hPhy : EnetPhy_Obj) (z : Nat)
    (hz : z < 4294967296) :
    ((Lan8720_setOutputImpedance b hPhy z).1 = ENETPHY_EINVALIDPARAMS ↔
        (z < 35000 ∨ 70000 < z)) ∧
      ((z < 35000 ∨ 70000 < z) → (Lan8720_setOutputImpedance b hPhy z).2 = b) := by
  have e1 : u32 z = z := Nat.mod_eq_of_lt hz
  unfold Lan8720_setOutputImpedance
  rw [e1]
  unfold IOMUXCFG_IOIMPEDANCE_MIN IOMUXCFG_IOIMPEDANCE_MAX
  by_cases h : z ≥ 35000 ∧ z ≤ 70000
  · rw [if_pos h]
    refine ⟨⟨fun h1 => (by cases h1), fun h1 => (by omega)⟩, fun h1 => by omega⟩
  · rw [if_neg h]
    refine ⟨⟨fun _ => by omega, fun _ => rfl⟩, fun _ => rfl⟩

/-- C6, at the two impedances next to the range, 34999 and 70001. -/
theorem setOutputImpedance_invalid_iff_witness :
    ((Lan8720_setOutputImpedance Bus.zero ⟨1⟩ 34999).1 = ENETPHY_EINVALIDPARAMS ∧
        (Lan8720_setOutputImpedance Bus.zero ⟨1⟩ 34999).2.trace = []) ∧
      ((Lan8720_setOutputImpedance Bus.zero ⟨1⟩ 70001).1 = ENETPHY_EINVALIDPARAMS ∧
        (Lan8720_setOutputImpedance Bus.zero ⟨1⟩ 70001).2.trace = []) :=
  have h1 := setOutputImpedance_invalid_iff Bus.zero ⟨1⟩ 34999 (by decide)
  have h2 := setOutputImpedance_invalid_iff Bus.zero ⟨1⟩ 70001 (by decide)
  ⟨⟨h1.1.mpr (Or.inl (by decide)), by rw [h1.2 (Or.inl (by decide))]; rfl⟩,
    ⟨h2.1.mpr (Or.inr (by decide)), by rw [h2.2 (Or.inr (by decide))]; rfl⟩⟩

/-- C7: for depth 3, 4, 6, 8 `Lan8720_setTxFifoDepth` returns success with the
field codes 0x0000, 0x4000, 0x8000, 0xC000, which are pairwise distinct; when
the bus read succeeds its bus operations are one read and one write of
register 0x1B, after which the bits under mask 0xC000 are the code and the
low 14 bits are those of the prior value. -/
theorem setTxFifoDepth_sets_depth_code (b : Bus) (hPhy : EnetPhy_Obj) (depth : Nat)
    (hd : depth = 3 ∨ depth = 4 ∨ depth = 6 ∨ depth = 8)
    (hV : b.regs hPhy.addr 0x1B < 65536) :
    (Lan8720_setTxFifoDepth b hPhy depth).1 = ENETPHY_SOK ∧
      (txFifoDepthSel 3).2 = 0x0000 ∧ (txFifoDepthSel 4).2 = 0x4000 ∧
      (txFifoDepthSel 6).2 = 0x8000 ∧ (txFifoDepthSel 8).2 = 0xC000 ∧
      [(txFifoDepthSel 3).2, (txFifoDepthSel 4).2, (txFifoDepthSel 6).2,
        (txFifoDepthSel 8).2].Nodup ∧
      (b.nextReadOk = true →
        (Lan8720_setTxFifoDepth b hPhy depth).2.trace =
            b.trace ++ [BusOp.read hPhy.addr 0x1B,
              BusOp.write hPhy.addr 0x1B
                ((b.regs hPhy.addr 0x1B &&& 0x3FFF) ||| (txFifoDepthSel depth).2)] ∧
          (Lan8720_setTxFifoDepth b hPhy depth).2.regs hPhy.addr 0x1B &&& 0xC000 =
            (txFifoDepthSel depth).2 ∧
          (Lan8720_setTxFifoDepth b hPhy depth).2.regs hPhy.addr 0x1B &&& 0x3FFF =
            b.regs hPhy.addr 0x1B &&& 0x3FFF) := by
  have hg := txFifoDepthSel_good hd
  have hne : LAN8720_PHYCR ≠ PHY_MMD_DR := by decide
  have hreg : LAN8720_PHYCR = 0x1B := rfl
  have hml : PHYCR_TXFIFODEPTH_MASK < 65536 := by decide
  have hmask : PHYCR_TXFIFODEPTH_MASK = 0xC000 := rfl
  have hnot : (0xFFFF ^^^ PHYCR_TXFIFODEPTH_MASK) = 0x3FFF := by decide
  unfold Lan8720_setTxFifoDepth
  simp only [hg.1, if_true]
  refine ⟨trivial, by decide, by decide, by decide, by decide, by decide, ?_⟩
  intro hok
  have hm := rmwMerge_eq _ _ (txFifoDepthSel depth).2 hV hml
  have ha := rmwMerge_and_mask (b.regs hPhy.addr 0x1B) PHYCR_TXFIFODEPTH_MASK
    (txFifoDepthSel depth).2 hml
  have hb := rmwMerge_and_not_mask (b.regs hPhy.addr 0x1B) PHYCR_TXFIFODEPTH_MASK
    (txFifoDepthSel depth).2 hV
  rw [hnot] at hm hb
  rw [hmask] at hm ha hb
  rw [hg.2] at hm ha
  rw [rmwReg_ok_eq b hPhy _ _ _ hne hok]
  simp only [hreg, hmask, u16_of_lt hV, and_self, if_true]
  exact ⟨by rw [hm], ha, hb⟩

/-- C7, at depth 8 on a register that holds 0x1234: it ends with 0xD234. -/
theorem setTxFifoDepth_sets_depth_code_witness :
    (Lan8720_setTxFifoDepth { Bus.zero with regs := fun _ _ => 0x1234 } ⟨1⟩ 8).1 = ENETPHY_SOK ∧
      (Lan8720_setTxFifoDepth { Bus.zero with regs := fun _ _ => 0x1234 } ⟨1⟩ 8).2.trace =
        [BusOp.read 1 0x1B, BusOp.write 1 0x1B 0xD234] :=
  have h := setTxFifoDepth_sets_depth_code { Bus.zero with regs := fun _ _ => 0x1234 } ⟨1⟩ 8
    (by decide) (by decide)
  ⟨h.1, (h.2.2.2.2.2.2 rfl).1⟩

/-- C8: for every 8-bit depth, `Lan8720_setTxFifoDepth` returns success
exactly for 3, 4, 6 and 8; for every other value it returns the
invalid-parameter error and leaves the bus as it was, with no register read
or write. -/
theorem setTxFifoDepth_invalid_iff (b : Bus) (hPhy : EnetPhy_Obj) (depth : Nat)
    (hd : depth < 256) :
    ((Lan8720_setTxFifoDepth b hPhy depth).1 = ENETPHY_SOK ↔
        (depth = 3 ∨ depth = 4 ∨ depth = 6 ∨ depth = 8)) ∧
      (¬ (depth = 3 ∨ depth = 4 ∨ depth = 6 ∨ depth = 8) →
        (Lan8720_setTxFifoDepth b hPhy depth).1 = ENETPHY_EINVALIDPARAMS ∧
          (Lan8720_setTxFifoDepth b hPhy depth).2 = b) := by
  have hbad : ¬ (depth = 3 ∨ depth = 4 ∨ depth = 6 ∨ depth = 8) →
      Lan8720_setTxFifoDepth b hPhy depth = (ENETPHY_EINVALIDPARAMS, b) :=
    fun h => setTxFifoDepth_rejects b hPhy hd h
  refine ⟨⟨fun h => ?_, fun h => ?_⟩, fun h => ?_⟩
  · by_contra hn
    rw [hbad hn] at h
    cases h
  · unfold Lan8720_setTxFifoDepth
    simp [(txFifoDepthSel_good h).1]
  · rw [hbad h]
    exact ⟨rfl, rfl⟩

/-- C8, at the depths 5, 0 and 255. -/
theorem setTxFifoDepth_invalid_iff_witness :
    (Lan8720_setTxFifoDepth Bus.zero ⟨1⟩ 5).1 = ENETPHY_EINVALIDPARAMS ∧
      (Lan8720_setTxFifoDepth Bus.zero ⟨1⟩ 0).1 = ENETPHY_EINVALIDPARAMS ∧
      (Lan8720_setTxFifoDepth Bus.zero ⟨1⟩ 255).1 = ENETPHY_EINVALIDPARAMS ∧
      (Lan8720_setTxFifoDepth Bus.zero ⟨1⟩ 5).2.trace = [] :=
  have h5 := (setTxFifoDepth_invalid_iff Bus.zero ⟨1⟩ 5 (by decide)).2 (by decide)
  have h0 := (setTxFifoDepth_invalid_iff Bus.zero ⟨1⟩ 0 (by decide)).2 (by decide)
  have h255 := (setTxFifoDepth_invalid_iff Bus.zero ⟨1⟩ 255 (by decide)).2 (by decide)
  ⟨h5.1, h0.1, h255.1, by rw [h5.2]; rfl⟩

/-- C1, as stated, fails: `Lan8720_config` returns success for a configuration
whose TX delay is 4001 ps, for one whose impedance is 34999 milli-ohms and for
one whose TX FIFO depth is 5. -/
theorem config_accepts_out_of_range_parameters :
    (Lan8720_config Bus.zero ⟨1⟩ ⟨1, { cfgInRange with txDelayInPs := 4001 }⟩
        EnetPhy_Mii.ENETPHY_MAC_MII_RMII).1 = ENETPHY_SOK ∧
      (Lan8720_config Bus.zero ⟨1⟩ ⟨1, { cfgInRange with impedanceInMilliOhms := 34999 }⟩
        EnetPhy_Mii.ENETPHY_MAC_MII_RMII).1 = ENETPHY_SOK ∧
      (Lan8720_config Bus.zero ⟨1⟩ ⟨1, { cfgInRange with txFifoDepth := 5 }⟩
        EnetPhy_Mii.ENETPHY_MAC_MII_RMII).1 = ENETPHY_SOK ∧
      (Lan8720_config Bus.zero ⟨1⟩ ⟨1, { cfgInRange with txDelayInPs := 4001 }⟩
        EnetPhy_Mii.ENETPHY_MAC_MII_RMII).1 ≠ ENETPHY_EINVALIDPARAMS :=
  ⟨rfl, rfl, rfl, by decide⟩

/-- C1, amended: `Lan8720_config` returns success for every configuration and
link mode, out-of-range parameters included, since it calls none of the
validating sub-operations; called on their own with the configuration's
values, `Lan8720_setClkDelay` (a delay above 4000), `Lan8720_setOutputImpedance`
(impedance outside 35000..70000) and `Lan8720_setTxFifoDepth` (depth not in
{3,4,6,8}) return the invalid-parameter failure and leave the bus untouched. -/
theorem config_succeeds_validation_in_suboperations (b : Bus) (hPhy : EnetPhy_Obj)
    (cfg : EnetPhy_Cfg) (mii : EnetPhy_Mii)
    (htx : cfg.extendedCfg.txDelayInPs < 4294967296)
    (hrx : cfg.extendedCfg.rxDelayInPs < 4294967296)
    (hz : cfg.extendedCfg.impedanceInMilliOhms < 4294967296)
    (hd : cfg.extendedCfg.txFifoDepth < 256) :
    (Lan8720_config b hPhy cfg mii).1 = ENETPHY_SOK ∧
      ((4000 < cfg.extendedCfg.txDelayInPs ∨ 4000 < cfg.extendedCfg.rxDelayInPs) →
        Lan8720_setClkDelay b hPhy cfg.extendedCfg.txDelayInPs cfg.extendedCfg.rxDelayInPs =
          (ENETPHY_EINVALIDPARAMS, b)) ∧
      ((cfg.extendedCfg.impedanceInMilliOhms < 35000 ∨
          70000 < cfg.extendedCfg.impedanceInMilliOhms) →
        Lan8720_setOutputImpedance b hPhy cfg.extendedCfg.impedanceInMilliOhms =
          (ENETPHY_EINVALIDPARAMS, b)) ∧
      (¬ (cfg.extendedCfg.txFifoDepth = 3 ∨ cfg.extendedCfg.txFifoDepth = 4 ∨
          cfg.extendedCfg.txFifoDepth = 6 ∨ cfg.extendedCfg.txFifoDepth = 8) →
        Lan8720_setTxFifoDepth b hPhy cfg.extendedCfg.txFifoDepth =
          (ENETPHY_EINVALIDPARAMS, b)) :=
  ⟨rfl, setClkDelay_rejects b hPhy htx hrx, setOutputImpedance_rejects b hPhy hz,
    setTxFifoDepth_rejects b hPhy hd⟩

/-- C1 amended, at a configuration with TX delay 4001 ps. -/
theorem config_succeeds_validation_in_suboperations_witness :
    (Lan8720_config Bus.zero ⟨1⟩ ⟨1, { cfgInRange with txDelayInPs := 4001 }⟩
        EnetPhy_Mii.ENETPHY_MAC_MII_MII).1 = ENETPHY_SOK ∧
      Lan8720_setClkDelay Bus.zero ⟨1⟩ 4001 250 = (ENETPHY_EINVALIDPARAMS, Bus.zero) :=
  have h := config_succeeds_validation_in_suboperations Bus.zero ⟨1⟩
    ⟨1, { cfgInRange with txDelayInPs := 4001 }⟩ EnetPhy_Mii.ENETPHY_MAC_MII_MII
    (by decide) (by decide) (by decide) (by decide)
  ⟨h.1, h.2.1 (Or.inl (by decide))⟩

/-- C2, as stated, fails: with txDelay = 1000 and rxDelay = 250, on a bus whose
registers hold 0, `Lan8720_config` issues two reads and one write of direct
registers only, and the delay-control extended register 0x86 still holds 0,
not 0x30. -/
theorem config_does_not_write_delay_register :
    (Lan8720_config Bus.zero ⟨1⟩ ⟨1, cfgInRange⟩ EnetPhy_Mii.ENETPHY_MAC_MII_RMII).2.trace =
        [BusOp.read 1 0x02, BusOp.read 1 0x03, BusOp.write 1 0x00 0x1200] ∧
      (Lan8720_config Bus.zero ⟨1⟩ ⟨1, cfgInRange⟩ EnetPhy_Mii.ENETPHY_MAC_MII_RMII).2.ext
        1 0x86 = 0 ∧
      (Lan8720_config Bus.zero ⟨1⟩ ⟨1, cfgInRange⟩ EnetPhy_Mii.ENETPHY_MAC_MII_RMII).2.ext
        1 0x86 % 256 ≠ 0x30 ∧
      cfgInRange.txDelayInPs = 1000 ∧ cfgInRange.rxDelayInPs = 250 := by
  refine ⟨?_, ?_, ?_, rfl, rfl⟩
  · simp [Lan8720_config, Ethernet_config_eq, Bus.zero]
  · simp [Lan8720_config, Ethernet_config_eq, Bus.zero]
  · simp [Lan8720_config, Ethernet_config_eq, Bus.zero]

/-- C2, amended: `Lan8720_config` leaves every extended register as it was;
for delays in 0..4000, after `Lan8720_setClkDelay` (which `Lan8720_config`
does not call) the delay-control extended register 0x86 holds the TX steps in
bits 4..7 and the RX steps in bits 0..3, where
steps(d) = ceil(max(d,1)/250) - 1; with txDelay = 1000 and rxDelay = 250 it
holds 0x30 (txSteps = 3, rxSteps = 0). -/
theorem config_keeps_ext_setClkDelay_packs_nibbles (b : Bus) (hPhy : EnetPhy_Obj)
    (cfg : EnetPhy_Cfg) (mii : EnetPhy_Mii)
    (htx : cfg.extendedCfg.txDelayInPs ≤ 4000) (hrx : cfg.extendedCfg.rxDelayInPs ≤ 4000) :
    (Lan8720_config b hPhy cfg mii).2.ext = b.ext ∧
      (((Lan8720_setClkDelay b hPhy cfg.extendedCfg.txDelayInPs
          cfg.extendedCfg.rxDelayInPs).2.ext hPhy.addr 0x86) >>> 4) &&& 0xF =
        steps cfg.extendedCfg.txDelayInPs ∧
      ((Lan8720_setClkDelay b hPhy cfg.extendedCfg.txDelayInPs
          cfg.extendedCfg.rxDelayInPs).2.ext hPhy.addr 0x86) &&& 0xF =
        steps cfg.extendedCfg.rxDelayInPs ∧
      (Lan8720_setClkDelay b hPhy 1000 250).2.ext hPhy.addr 0x86 = 0x30 ∧
      steps 1000 = 3 ∧ steps 250 = 0 := by
  have key : ∀ tx rx, tx ≤ 4000 → rx ≤ 4000 →
      (Lan8720_setClkDelay b hPhy tx rx).2.ext hPhy.addr 0x86 = (steps tx <<< 4) ||| steps rx := by
    intro tx rx h1 h2
    have hc : u32 tx ≤ RMIIDCTL_DELAY_MAX ∧ u32 rx ≤ RMIIDCTL_DELAY_MAX := by
      unfold u32 RMIIDCTL_DELAY_MAX; omega
    have hreg : u16 LAN8720_RMIIDCTL = 0x86 := by decide
    unfold Lan8720_setClkDelay
    rw [if_pos hc, writeExtReg_eq, clkDelayVal_eq h1 h2, u16_of_lt (clkDelayVal_lt h1 h2), hreg]
    simp
  have hn := nibbles_of_packed (steps_le htx) (steps_le hrx)
  refine ⟨?_, ?_, ?_, ?_, by decide, by decide⟩
  · simp [Lan8720_config, Ethernet_config_eq]
  · rw [key _ _ htx hrx]; exact hn.1
  · rw [key _ _ htx hrx]; exact hn.2
  · rw [key 1000 250 (by decide) (by decide)]; decide

/-- C2 amended, at the configuration with txDelay = 1000 and rxDelay = 250. -/
theorem config_keeps_ext_setClkDelay_packs_nibbles_witness :
    (Lan8720_config Bus.zero ⟨1⟩ ⟨1, cfgInRange⟩ EnetPhy_Mii.ENETPHY_MAC_MII_RMII).2.ext =
        Bus.zero.ext ∧
      (Lan8720_setClkDelay Bus.zero ⟨1⟩ 1000 250).2.ext 1 0x86 = 0x30 :=
  have h := config_keeps_ext_setClkDelay_packs_nibbles Bus.zero ⟨1⟩ ⟨1, cfgInRange⟩
    EnetPhy_Mii.ENETPHY_MAC_MII_RMII (by decide) (by decide)
  ⟨h.1, h.2.2.2.1⟩

/-- C11: `Lan8720_isMacModeSupported` returns true if and only if the mode is
MII or RMII; it returns false for RGMII and for every other mode value. -/
theorem isMacModeSupported_iff_mii_or_rmii (hPhy : EnetPhy_Obj) (mii : EnetPhy_Mii) :
    (Lan8720_isMacModeSupported hPhy mii = true ↔
        (mii = EnetPhy_Mii.ENETPHY_MAC_MII_MII ∨ mii = EnetPhy_Mii.ENETPHY_MAC_MII_RMII)) ∧
      Lan8720_isMacModeSupported hPhy EnetPhy_Mii.ENETPHY_MAC_MII_RGMII = false ∧
      ∀ raw, Lan8720_isMacModeSupported hPhy (EnetPhy_Mii.other raw) = false := by
  refine ⟨?_, rfl, fun _ => rfl⟩
  cases mii <;> simp [Lan8720_isMacModeSupported]

/-- C12: reset handshake, for both pairs of definitions in the source.  For
every prior bus state whose next two reads succeed, after `Lan8720_reset` the
control register shows bit 15 set and `Lan8720_isResetComplete` returns false;
on every state whose control register has bit 15 clear (read succeeding)
`Lan8720_isResetComplete` returns true; the one register `Lan8720_reset`
writes last is the one register `Lan8720_isResetComplete` reads (0x1F of the
handle's PHY for the second pair, 0x00 of the PHY at address 1 for the first). -/
theorem reset_then_isResetComplete (b : Bus) (hPhy : EnetPhy_Obj) (hok : b.readsOk 2 = true) :
    (((Lan8720_reset_ctrl b hPhy).regs hPhy.addr 0x1F).testBit 15 = true ∧
        (Lan8720_isResetComplete_ctrl (Lan8720_reset_ctrl b hPhy) hPhy).1 = false ∧
        (∀ c : Bus, c.nextReadOk = true → (c.regs hPhy.addr 0x1F).testBit 15 = false →
          (Lan8720_isResetComplete_ctrl c hPhy).1 = true) ∧
        (∃ v, (Lan8720_reset_ctrl b hPhy).trace =
          b.trace ++ [BusOp.read hPhy.addr 0x1F, BusOp.write hPhy.addr 0x1F v]) ∧
        (∀ c : Bus, (Lan8720_isResetComplete_ctrl c hPhy).2.trace =
          c.trace ++ [BusOp.read hPhy.addr 0x1F])) ∧
      (((Lan8720_reset_bmcr b hPhy).regs 1 0x00).testBit 15 = true ∧
        (Lan8720_isResetComplete_bmcr (Lan8720_reset_bmcr b hPhy) hPhy).1 = false ∧
        (∀ c : Bus, c.nextReadOk = true → (c.regs 1 0x00).testBit 15 = false →
          (Lan8720_isResetComplete_bmcr c hPhy).1 = true) ∧
        (Lan8720_reset_bmcr b hPhy).trace = b.trace ++ [BusOp.write 1 0x00 0x8000] ∧
        (∀ c : Bus, (Lan8720_isResetComplete_bmcr c hPhy).2.trace =
          c.trace ++ [BusOp.read 1 0x00])) := by
  have h1 : b.nextReadOk = true := nextReadOk_of_readsOk b 1 hok
  have hbit : ((Lan8720_reset_ctrl b hPhy).regs hPhy.addr 0x1F).testBit 15 = true := by
    rw [reset_ctrl_ok_eq b hPhy h1]
    simp [rmwMerge_bit15]
  have h2 : (Lan8720_reset_ctrl b hPhy).nextReadOk = true :=
    nextReadOk_of_readsOk _ 0
      (readsOk_tail b _ 1 hok (by rw [reset_ctrl_ok_eq b hPhy h1]))
  have hbit2 : ((Lan8720_reset_bmcr b hPhy).regs 1 0x00).testBit 15 = true := by
    rw [reset_bmcr_eq]
    simp only [and_self, if_true]
    decide
  have h3 : (Lan8720_reset_bmcr b hPhy).nextReadOk = true := by
    have hf : (Lan8720_reset_bmcr b hPhy).faults = b.faults := by rw [reset_bmcr_eq]
    unfold Bus.nextReadOk at h1 ⊢
    rw [hf]; exact h1
  refine ⟨⟨hbit, ?_, ?_, ?_, ?_⟩, ⟨hbit2, ?_, ?_, ?_, ?_⟩⟩
  · rw [isResetComplete_ctrl_ok _ _ h2, hbit]; rfl
  · intro c hc hcb
    rw [isResetComplete_ctrl_ok _ _ hc, hcb]; rfl
  · exact ⟨_, by rw [reset_ctrl_ok_eq b hPhy h1]⟩
  · intro c
    unfold Lan8720_isResetComplete_ctrl EnetPhy_readReg
    simp only []
    rw [transportRead_bus]
    rfl
  · rw [isResetComplete_bmcr_ok _ _ h3, hbit2]; rfl
  · intro c hc hcb
    rw [isResetComplete_bmcr_ok _ _ hc, hcb]; rfl
  · rw [reset_bmcr_eq]
  · intro c
    unfold Lan8720_isResetComplete_bmcr lan8720_read_reg
    simp only []
    rw [transportRead_bus]
    rfl

/-- C12, on a bus whose registers hold 0, for the PHY at address 3. -/
theorem reset_then_isResetComplete_witness :
    (Lan8720_isResetComplete_ctrl (Lan8720_reset_ctrl Bus.zero ⟨3⟩) ⟨3⟩).1 = false ∧
      (Lan8720_isResetComplete_ctrl Bus.zero ⟨3⟩).1 = true ∧
      (Lan8720_isResetComplete_bmcr (Lan8720_reset_bmcr Bus.zero ⟨3⟩) ⟨3⟩).1 = false ∧
      (Lan8720_isResetComplete_bmcr Bus.zero ⟨3⟩).1 = true :=
  have h := reset_then_isResetComplete Bus.zero ⟨3⟩ (by decide)
  ⟨h.1.2.1, h.1.2.2.1 Bus.zero (by decide) (by decide), h.2.2.1,
    h.2.2.2.1 Bus.zero (by decide) (by decide)⟩

/-- C13, as stated, fails: on a bus whose next read fails,
`Lan8720_setOutputImpedance` with the valid impedance 50000 returns success;
the failed read of the MMD data register is the last bus operation. -/
theorem setOutputImpedance_success_on_failed_read :
    ({ Bus.zero with faults := [some 0] } : Bus).nextReadOk = false ∧
      (Lan8720_setOutputImpedance { Bus.zero with faults := [some 0] } ⟨1⟩ 50000).1 =
        ENETPHY_SOK ∧
      (Lan8720_setOutputImpedance { Bus.zero with faults := [some 0] } ⟨1⟩ 50000).2.trace =
        [BusOp.write 1 0x0D 0x1F, BusOp.write 1 0x0E 0x170, BusOp.write 1 0x0D 0x401F,
          BusOp.read 1 0x0E] := by
  refine ⟨rfl, rfl, ?_⟩
  decide

/-- C13, amended: a failure of the bus read inside `Lan8720_rmwExtReg` is not
reported to the caller.  `Lan8720_rmwExtReg` has no result, and
`Lan8720_setOutputImpedance` with an impedance in 35000..70000 returns success
also when that read fails; the failure shows on the bus only, where the failed
read is the last operation and no extended register changes. -/
theorem setOutputImpedance_ignores_read_failure (b : Bus) (hPhy : EnetPhy_Obj) (z g : Nat)
    (rest : List (Option Nat)) (hlo : 35000 ≤ z) (hhi : z ≤ 70000)
    (hf : b.faults = some g :: rest) :
    (Lan8720_setOutputImpedance b hPhy z).1 = ENETPHY_SOK ∧
      (Lan8720_setOutputImpedance b hPhy z).2.trace =
        b.trace ++ [BusOp.write hPhy.addr PHY_MMD_CR 0x1F,
          BusOp.write hPhy.addr PHY_MMD_DR 0x170,
          BusOp.write hPhy.addr PHY_MMD_CR 0x401F,
          BusOp.read hPhy.addr PHY_MMD_DR] ∧
      (Lan8720_setOutputImpedance b hPhy z).2.ext = b.ext := by
  have h1 : u32 z ≥ IOMUXCFG_IOIMPEDANCE_MIN ∧ u32 z ≤ IOMUXCFG_IOIMPEDANCE_MAX := by
    unfold u32 IOMUXCFG_IOIMPEDANCE_MIN IOMUXCFG_IOIMPEDANCE_MAX; omega
  have hreg : u16 (u32 LAN8720_IOMUXCFG) = 0x170 := by decide
  unfold Lan8720_setOutputImpedance
  rw [if_pos h1, rmwExtReg_fail_eq b hPhy _ _ _ g rest hf, hreg]
  exact ⟨rfl, rfl, rfl⟩

/-- C13 amended, at impedance 50000 on a bus whose next read fails. -/
theorem setOutputImpedance_ignores_read_failure_witness :
    (Lan8720_setOutputImpedance { Bus.zero with faults := [some 0] } ⟨1⟩ 50000).1 =
        ENETPHY_SOK ∧
      (Lan8720_setOutputImpedance { Bus.zero with faults := [some 0] } ⟨1⟩ 50000).2.ext =
        Bus.zero.ext :=
  have h := setOutputImpedance_ignores_read_failure { Bus.zero with faults := [some 0] } ⟨1⟩
    50000 0 [] (by decide) (by decide) rfl
  ⟨h.1, h.2.2⟩

/-- C14: when the bus read of the MMD data register in `Lan8720_rmwExtReg`
fails, the bus operations of the call are the three selecting writes and the
read, the read being the last one: no write follows it, and every extended
register, the target included, keeps its content. -/
theorem rmwExtReg_aborts_on_failed_read (b : Bus) (hPhy : EnetPhy_Obj) (reg mask val g : Nat)
    (rest : List (Option Nat)) (hreg : reg < 65536) (hf : b.faults = some g :: rest) :
    (Lan8720_rmwExtReg b hPhy reg mask val).trace =
        b.trace ++ [BusOp.write hPhy.addr PHY_MMD_CR 0x1F,
          BusOp.write hPhy.addr PHY_MMD_DR reg,
          BusOp.write hPhy.addr PHY_MMD_CR 0x401F,
          BusOp.read hPhy.addr PHY_MMD_DR] ∧
      (Lan8720_rmwExtReg b hPhy reg mask val).trace.getLast? =
        some (BusOp.read hPhy.addr PHY_MMD_DR) ∧
      (Lan8720_rmwExtReg b hPhy reg mask val).ext = b.ext ∧
      (Lan8720_rmwExtReg b hPhy reg mask val).ext hPhy.addr reg = b.ext hPhy.addr reg := by
  have hr : u16 (u32 reg) = reg := by unfold u16 u32; omega
  rw [rmwExtReg_fail_eq b hPhy reg mask val g rest hf, hr]
  refine ⟨rfl, ?_, rfl, rfl⟩
  simp [List.getLast?_append]

/-- C14, on register 0x170 holding 0xABCD, with a read that fails leaving the
stale value 0x5555. -/
theorem rmwExtReg_aborts_on_failed_read_witness :
    (Lan8720_rmwExtReg { Bus.zero with ext := fun _ _ => 0xABCD, faults := [some 0x5555] } ⟨1⟩
        0x170 0x001F 0x0010).trace.getLast? = some (BusOp.read 1 PHY_MMD_DR) ∧
      (Lan8720_rmwExtReg { Bus.zero with ext := fun _ _ => 0xABCD, faults := [some 0x5555] } ⟨1⟩
        0x170 0x001F 0x0010).ext 1 0x170 = 0xABCD :=
  have h := rmwExtReg_aborts_on_failed_read
    { Bus.zero with ext := fun _ _ => 0xABCD, faults := [some 0x5555] } ⟨1⟩ 0x170 0x001F 0x0010
    0x5555 [] (by decide) rfl
  ⟨h.2.1, h.2.2.2⟩

/-- C15: the bus operations of every call of `Lan8720_rmwExtReg` are, in
order: (1) a write of device-address | address-mode to the MMD control
register, (2) a write of the target address to the MMD data register, (3) a
write of device-address | data-no-post-increment to the MMD control register,
(4) a read of the MMD data register; then, only when that read succeeded, a
further write of device-address | data-no-post-increment to the control
register followed by the write of the merged data to the data register.  The
control register selects data-no-post-increment from step (3) on. -/
theorem rmwExtReg_follows_indirect_protocol (b : Bus) (hPhy : EnetPhy_Obj) (reg mask val : Nat)
    (hreg : reg < 65536) :
    (Lan8720_rmwExtReg b hPhy reg mask val).trace =
        b.trace ++ [BusOp.write hPhy.addr PHY_MMD_CR (MMD_CR_DEVADDR ||| MMD_CR_ADDR),
          BusOp.write hPhy.addr PHY_MMD_DR reg,
          BusOp.write hPhy.addr PHY_MMD_CR (MMD_CR_DEVADDR ||| MMD_CR_DATA_NOPOSTINC),
          BusOp.read hPhy.addr PHY_MMD_DR] ++
        (if b.nextReadOk = true then
          [BusOp.write hPhy.addr PHY_MMD_CR (MMD_CR_DEVADDR ||| MMD_CR_DATA_NOPOSTINC),
            BusOp.write hPhy.addr PHY_MMD_DR (rmwMerge (u16 (b.ext hPhy.addr reg)) mask val)]
        else []) ∧
      (Lan8720_rmwExtReg b hPhy reg mask val).regs hPhy.addr PHY_MMD_CR =
        MMD_CR_DEVADDR ||| MMD_CR_DATA_NOPOSTINC ∧
      (Lan8720_rmwExtReg b hPhy reg mask val).mmdDataMode hPhy.addr = true := by
  have hr : u16 (u32 reg) = reg := by unfold u16 u32; omega
  have e1 : MMD_CR_DEVADDR ||| MMD_CR_ADDR = 0x1F := by decide
  have e2 : MMD_CR_DEVADDR ||| MMD_CR_DATA_NOPOSTINC = 0x401F := by decide
  have hcr : (Lan8720_rmwExtReg b hPhy reg mask val).regs hPhy.addr PHY_MMD_CR = 0x401F := by
    rw [rmwExtReg_regs]; simp
  refine ⟨?_, ?_, ?_⟩
  · rw [rmwExtReg_trace, hr, e1, e2]
  · rw [hcr, e2]
  · exact mmdDataMode_data _ _ hcr

/-- C15, on register 0x170 of the PHY at address 1, with a successful read. -/
theorem rmwExtReg_follows_indirect_protocol_witness :
    (Lan8720_rmwExtReg Bus.zero ⟨1⟩ 0x170 0x001F 0x0010).trace =
      [BusOp.write 1 0x0D 0x1F, BusOp.write 1 0x0E 0x170, BusOp.write 1 0x0D 0x401F,
        BusOp.read 1 0x0E, BusOp.write 1 0x0D 0x401F, BusOp.write 1 0x0E 0x0010] :=
  (rmwExtReg_follows_indirect_protocol Bus.zero ⟨1⟩ 0x170 0x001F 0x0010 (by decide)).1

/-- C16, the code at a failing input: with the RMII control register holding
0x0080 and the mode MII, `Lan8720_setMiiMode` passes mask 0 and value 0x0080,
writes 0x0080 back and leaves the RMII-enable bit (bit 7) set; with mode RMII on
a register holding 0 it sets the bit. -/
theorem setMiiMode_mii_leaves_enable_bit_set :
    (Lan8720_setMiiMode { Bus.zero with ext := fun _ _ => 0x0080 } ⟨1⟩
        EnetPhy_Mii.ENETPHY_MAC_MII_MII).ext 1 0x32 = 0x0080 ∧
      ((Lan8720_setMiiMode { Bus.zero with ext := fun _ _ => 0x0080 } ⟨1⟩
        EnetPhy_Mii.ENETPHY_MAC_MII_MII).ext 1 0x32).testBit 7 = true ∧
      (Lan8720_setMiiMode { Bus.zero with ext := fun _ _ => 0x0080 } ⟨1⟩
        EnetPhy_Mii.ENETPHY_MAC_MII_MII).trace =
        [BusOp.write 1 0x0D 0x1F, BusOp.write 1 0x0E 0x32, BusOp.write 1 0x0D 0x401F,
          BusOp.read 1 0x0E, BusOp.write 1 0x0D 0x401F, BusOp.write 1 0x0E 0x0080] ∧
      ((Lan8720_setMiiMode Bus.zero ⟨1⟩ EnetPhy_Mii.ENETPHY_MAC_MII_RMII).ext 1 0x32).testBit 7 =
        true := by
  refine ⟨by decide, by decide, by decide, by decide⟩

/-- C17, the code at a failing input: the mask `Lan8720_setClkShift` passes is
`1000 | 1000 = 0x3E8`, with the six bits 3, 5, 6, 7, 8, 9 set; the field value
is 0 for (false, false) and 0x3E8 for the three other combinations, so on every
bus (true, false) and (false, true) leave the same state: on a register holding
0, both leave 0x3E8. -/
theorem setClkShift_tx_only_equals_rx_only :
    clkShiftMask = 0x3E8 ∧
      (List.range 16).filter (fun i => clkShiftMask.testBit i) = [3, 5, 6, 7, 8, 9] ∧
      [clkShiftVal false false, clkShiftVal true false, clkShiftVal false true,
        clkShiftVal true true] = [0, 0x3E8, 0x3E8, 0x3E8] ∧
      (∀ (b : Bus) (hPhy : EnetPhy_Obj),
        Lan8720_setClkShift b hPhy true false = Lan8720_setClkShift b hPhy false true) ∧
      (Lan8720_setClkShift Bus.zero ⟨1⟩ true false).ext 1 0x32 = 0x3E8 ∧
      (Lan8720_setClkShift Bus.zero ⟨1⟩ false true).ext 1 0x32 = 0x3E8 := by
  have hv : clkShiftVal true false = clkShiftVal false true := by decide
  refine ⟨by decide, by decide, by decide, ?_, by decide, by decide⟩
  intro b hPhy
  unfold Lan8720_setClkShift
  rw [hv]

/-- C18, the code at a failing input: bit 7 lies inside the mask 0x3E8 that
`Lan8720_setClkShift` passes, so with (false, false) on a register holding
0x0080 the register ends as 0 and the RMII-enable bit is cleared, also right
after `Lan8720_setMiiMode` with mode RMII has set it; with (true, false) on a
register holding 0 the bit becomes set. -/
theorem setClkShift_changes_enable_bit :
    clkShiftMask.testBit 7 = true ∧
      (Lan8720_setClkShift { Bus.zero with ext := fun _ _ => 0x0080 } ⟨1⟩ false false).ext
        1 0x32 = 0 ∧
      ((Lan8720_setMiiMode Bus.zero ⟨1⟩ EnetPhy_Mii.ENETPHY_MAC_MII_RMII).ext 1 0x32).testBit 7 =
        true ∧
      ((Lan8720_setClkShift (Lan8720_setMiiMode Bus.zero ⟨1⟩ EnetPhy_Mii.ENETPHY_MAC_MII_RMII)
        ⟨1⟩ false false).ext 1 0x32).testBit 7 = false ∧
      ((Lan8720_setClkShift Bus.zero ⟨1⟩ true false).ext 1 0x32).testBit 7 = true := by
  refine ⟨by decide, by decide, by decide, by decide, by decide⟩

/-- C19: for every mode and every 16-bit prior value V of the RMII control
register (0x32), the value `Lan8720_setMiiMode` leaves there agrees with V on
every bit other than bit 7, whether the bus read succeeds or not. -/
theorem setMiiMode_keeps_bits_other_than_7 (b : Bus) (hPhy : EnetPhy_Obj) (mii : EnetPhy_Mii)
    (hV : b.ext hPhy.addr 0x32 < 65536) :
    ∀ i, i ≠ 7 →
      ((Lan8720_setMiiMode b hPhy mii).ext hPhy.addr 0x32).testBit i =
        (b.ext hPhy.addr 0x32).testBit i := by
  intro i hi
  have hreg : u16 (u32 LAN8720_RMIICTL) = 0x32 := by decide
  have hen : u16 RMIICTL_RMIIEN = 128 := by decide
  have hz : (0 : Nat).testBit i = false := Nat.zero_testBit i
  have h7 : (128 : Nat).testBit i = false := by
    rw [testBit_128]; simp; omega
  have hmask : (if mii = EnetPhy_Mii.ENETPHY_MAC_MII_RMII then u16 RMIICTL_RMIIEN else 0).testBit i
      = false := by
    split_ifs
    · rw [hen]; exact h7
    · exact hz
  unfold Lan8720_setMiiMode
  simp only []
  rw [rmwExtReg_ext, hreg]
  by_cases hok : b.nextReadOk = true
  · simp only [hok, and_self, if_true, true_and]
    rw [rmwMerge_testBit, hmask, u16_of_lt hV]
    by_cases h16 : i < 16
    · simp [h16]
    · simp [h16, testBit_of_lt_65536 hV (Nat.le_of_not_lt h16)]
  · simp [hok]

/-- C19, on a register holding 0xFF7F with mode RMII: it ends as 0xFFFF. -/
theorem setMiiMode_keeps_bits_other_than_7_witness :
    ((Lan8720_setMiiMode { Bus.zero with ext := fun _ _ => 0xFF7F } ⟨1⟩
        EnetPhy_Mii.ENETPHY_MAC_MII_RMII).ext 1 0x32).testBit 8 = true ∧
      (Lan8720_setMiiMode { Bus.zero with ext := fun _ _ => 0xFF7F } ⟨1⟩
        EnetPhy_Mii.ENETPHY_MAC_MII_RMII).ext 1 0x32 = 0xFFFF :=
  ⟨setMiiMode_keeps_bits_other_than_7 { Bus.zero with ext := fun _ _ => 0xFF7F } ⟨1⟩
    EnetPhy_Mii.ENETPHY_MAC_MII_RMII (by decide) 8 (by decide), by decide⟩

/-- C20, as stated, fails: with the delay-control register holding 0xFF00 and
the delays 1000 and 250, `Lan8720_setClkDelay` leaves 0x0030 there; bits 8..15
of the prior value are lost. -/
theorem setClkDelay_clears_upper_byte :
    (Lan8720_setClkDelay { Bus.zero with ext := fun _ _ => 0xFF00 } ⟨1⟩ 1000 250).2.ext 1 0x86 =
        0x0030 ∧
      ((Lan8720_setClkDelay { Bus.zero with ext := fun _ _ => 0xFF00 } ⟨1⟩ 1000 250).2.ext
        1 0x86).testBit 8 = false ∧
      (0xFF00 : Nat).testBit 8 = true := by
  refine ⟨by decide, by decide, by decide⟩

/-- C20, amended: the clock-delay write is a full overwrite, not a
read-modify-write.  For delays in 0..4000 and every prior value of the
delay-control register (0x86), `Lan8720_setClkDelay` issues four bus writes and
no read, and leaves the register equal to
`(steps(txDelay) << 4) | steps(rxDelay)`; its bits 8..15 are then 0 whatever
they were before. -/
theorem setClkDelay_overwrites_register (b : Bus) (hPhy : EnetPhy_Obj) (txDelay rxDelay : Nat)
    (htx : txDelay ≤ 4000) (hrx : rxDelay ≤ 4000) :
    (Lan8720_setClkDelay b hPhy txDelay rxDelay).2.trace =
        b.trace ++ [BusOp.write hPhy.addr PHY_MMD_CR 0x1F,
          BusOp.write hPhy.addr PHY_MMD_DR 0x86,
          BusOp.write hPhy.addr PHY_MMD_CR 0x401F,
          BusOp.write hPhy.addr PHY_MMD_DR ((steps txDelay <<< 4) ||| steps rxDelay)] ∧
      (Lan8720_setClkDelay b hPhy txDelay rxDelay).2.ext hPhy.addr 0x86 =
        (steps txDelay <<< 4) ||| steps rxDelay ∧
      ∀ i, 8 ≤ i →
        ((Lan8720_setClkDelay b hPhy txDelay rxDelay).2.ext hPhy.addr 0x86).testBit i = false := by
  have hlt := packed_lt_256 (steps_le htx) (steps_le hrx)
  have hv : u16 ((steps txDelay <<< 4) ||| steps rxDelay) = (steps txDelay <<< 4) ||| steps rxDelay :=
    u16_of_lt (by omega)
  have hreg : u16 0x86 = 0x86 := by decide
  have hext : (Lan8720_setClkDelay b hPhy txDelay rxDelay).2.ext hPhy.addr 0x86 =
      (steps txDelay <<< 4) ||| steps rxDelay := by
    rw [setClkDelay_ok_eq b hPhy htx hrx, writeExtReg_eq, hv, hreg]
    simp
  refine ⟨?_, hext, ?_⟩
  · rw [setClkDelay_ok_eq b hPhy htx hrx, writeExtReg_eq, hv, hreg]
  · intro i hi
    rw [hext]
    apply Nat.testBit_lt_two_pow
    calc (steps txDelay <<< 4) ||| steps rxDelay < 2 ^ 8 := by norm_num; exact hlt
      _ ≤ 2 ^ i := Nat.pow_le_pow_right (by norm_num) hi

/-- C20 amended, with the delays 1000 and 250 on a register holding 0xFF00. -/
theorem setClkDelay_overwrites_register_witness :
    (Lan8720_setClkDelay { Bus.zero with ext := fun _ _ => 0xFF00 } ⟨1⟩ 1000 250).2.ext 1 0x86 =
        0x30 ∧
      ((Lan8720_setClkDelay { Bus.zero with ext := fun _ _ => 0xFF00 } ⟨1⟩ 1000 250).2.ext
        1 0x86).testBit 15 = false :=
  have h := setClkDelay_overwrites_register { Bus.zero with ext := fun _ _ => 0xFF00 } ⟨1⟩
    1000 250 (by decide) (by decide)
  ⟨h.2.1, h.2.2 15 (by decide)⟩

/-- C21: for every gpio0Mode, gpio1Mode and every 16-bit prior value V of the
GPIO mux control extended register (0x172), when the bus read succeeds
`Lan8720_setGpioMux` is one extended read-modify-write that leaves the register
equal to `(V & 0xFF00) | ((gpio1Mode & 0xF) << 4) | (gpio0Mode & 0xF)`: bits
0..3 are the low nibble of gpio0Mode, bits 4..7 the low nibble of gpio1Mode,
bits 8..15 those of V. -/
theorem setGpioMux_packs_two_nibbles (b : Bus) (hPhy : EnetPhy_Obj) (gpio0Mode gpio1Mode : Nat)
    (hV : b.ext hPhy.addr 0x172 < 65536) (hok : b.nextReadOk = true) :
    (Lan8720_setGpioMux b hPhy gpio0Mode gpio1Mode).ext hPhy.addr 0x172 =
        (b.ext hPhy.addr 0x172 &&& 0xFF00) ||| ((gpio1Mode &&& 0xF) <<< 4) |||
          (gpio0Mode &&& 0xF) ∧
      (Lan8720_setGpioMux b hPhy gpio0Mode gpio1Mode).ext hPhy.addr 0x172 &&& 0xF =
        gpio0Mode &&& 0xF ∧
      ((Lan8720_setGpioMux b hPhy gpio0Mode gpio1Mode).ext hPhy.addr 0x172 >>> 4) &&& 0xF =
        gpio1Mode &&& 0xF ∧
      (Lan8720_setGpioMux b hPhy gpio0Mode gpio1Mode).ext hPhy.addr 0x172 &&& 0xFF00 =
        b.ext hPhy.addr 0x172 &&& 0xFF00 ∧
      (Lan8720_setGpioMux b hPhy gpio0Mode gpio1Mode).trace =
        b.trace ++ [BusOp.write hPhy.addr PHY_MMD_CR 0x1F,
          BusOp.write hPhy.addr PHY_MMD_DR 0x172,
          BusOp.write hPhy.addr PHY_MMD_CR 0x401F,
          BusOp.read hPhy.addr PHY_MMD_DR,
          BusOp.write hPhy.addr PHY_MMD_CR 0x401F,
          BusOp.write hPhy.addr PHY_MMD_DR
            ((b.ext hPhy.addr 0x172 &&& 0xFF00) ||| ((gpio1Mode &&& 0xF) <<< 4) |||
              (gpio0Mode &&& 0xF))] := by
  have hreg : u16 (u32 LAN8720_GPIOMUXCTRL) = 0x172 := by decide
  have hmask : GPIOMUXCTRL_GPIO0_MASK ||| GPIOMUXCTRL_GPIO1_MASK = 0xFF := by decide
  have hnot : (0xFFFF ^^^ 0xFF : Nat) = 0xFF00 := by decide
  have h0 : gpio0Mode % 16 < 16 := Nat.mod_lt _ (by norm_num)
  have h1 : gpio1Mode % 16 < 16 := Nat.mod_lt _ (by norm_num)
  have key : ∀ val, val = gpio0Mode % 16 + 16 * (gpio1Mode % 16) →
      rmwMerge (b.ext hPhy.addr 0x172) 0xFF val =
          (b.ext hPhy.addr 0x172 &&& 0xFF00) ||| ((gpio1Mode &&& 0xF) <<< 4) |||
            (gpio0Mode &&& 0xF) ∧
        rmwMerge (b.ext hPhy.addr 0x172) 0xFF val &&& 0xF = gpio0Mode &&& 0xF ∧
        (rmwMerge (b.ext hPhy.addr 0x172) 0xFF val >>> 4) &&& 0xF = gpio1Mode &&& 0xF ∧
        rmwMerge (b.ext hPhy.addr 0x172) 0xFF val &&& 0xFF00 =
          b.ext hPhy.addr 0x172 &&& 0xFF00 := by
    intro val hval
    have hvm : val &&& 0xFF = val := by
      rw [and_255_eq_mod]; omega
    have hpack : ((gpio1Mode &&& 0xF) <<< 4) ||| (gpio0Mode &&& 0xF) = val := by
      rw [and_15_eq_mod, and_15_eq_mod, Nat.lor_comm,
        or_shift_eq_add _ _ 4 (by norm_num; exact h0)]
      omega
    have hm := rmwMerge_eq (b.ext hPhy.addr 0x172) 0xFF val hV (by decide)
    rw [hnot, hvm] at hm
    have ha := rmwMerge_and_mask (b.ext hPhy.addr 0x172) 0xFF val (by decide)
    have hb := rmwMerge_and_not_mask (b.ext hPhy.addr 0x172) 0xFF val hV
    rw [hnot] at hb
    rw [hvm, and_255_eq_mod] at ha
    generalize rmwMerge (b.ext hPhy.addr 0x172) 0xFF val = R at hm ha hb ⊢
    refine ⟨?_, ?_, ?_, hb⟩
    · rw [Nat.lor_assoc, hpack]; exact hm
    · rw [and_15_eq_mod, and_15_eq_mod]; omega
    · rw [and_15_eq_mod, and_15_eq_mod, Nat.shiftRight_eq_div_pow]; omega
  have hk := key _ (gpioMuxVal_eq gpio0Mode gpio1Mode)
  unfold Lan8720_setGpioMux
  rw [rmwExtReg_ok_eq b hPhy _ _ _ hok, hreg, hmask, u16_of_lt hV]
  simp only [and_self, if_true]
  exact ⟨hk.1, hk.2.1, hk.2.2.1, hk.2.2.2, by rw [hk.1]⟩

/-- C21, with the out-of-range modes 0x19 and 0x27 on a register holding
0xABCD: the register ends as 0xAB79. -/
theorem setGpioMux_packs_two_nibbles_witness :
    (Lan8720_setGpioMux { Bus.zero with ext := fun _ _ => 0xABCD } ⟨1⟩ 0x19 0x27).ext 1 0x172 =
      0xAB79 :=
  (setGpioMux_packs_two_nibbles { Bus.zero with ext := fun _ _ => 0xABCD } ⟨1⟩ 0x19 0x27
    (by decide) (by decide)).1

/-- C22: for every array of 4 LED mode values `Lan8720_setLedMode` issues one
bus operation, a write to the LED control register (0x18), of a word whose
nibble i (bits 4i..4i+3) equals `ledMode[i] & 0xF`; for modes that are at most
0xE nibble i is `ledMode[i]` itself, and two such arrays that pack to the same
word are equal. -/
theorem setLedMode_packs_four_nibbles (b : Bus) (hPhy : EnetPhy_Obj) (ledMode : Fin 4 → Nat) :
    (Lan8720_setLedMode b hPhy ledMode).trace =
        b.trace ++ [BusOp.write hPhy.addr 0x18 (ledVal ledMode)] ∧
      (Lan8720_setLedMode b hPhy ledMode).regs hPhy.addr 0x18 = ledVal ledMode ∧
      (∀ i : Fin 4, (ledVal ledMode >>> (4 * i.val)) &&& 0xF = ledMode i &&& 0xF) ∧
      (∀ i : Fin 4, ledMode i ≤ 0xE → (ledVal ledMode >>> (4 * i.val)) &&& 0xF = ledMode i) ∧
      (∀ other : Fin 4 → Nat, (∀ i, ledMode i ≤ 0xE) → (∀ i, other i ≤ 0xE) →
        ledVal ledMode = ledVal other → ledMode = other) := by
  have hne : LAN8720_LEDCR1 ≠ PHY_MMD_DR := by decide
  have hreg : LAN8720_LEDCR1 = 0x18 := rfl
  have hu : u16 (ledVal ledMode) = ledVal ledMode := by unfold ledVal; rw [u16_u16]
  have hnib : ∀ i : Fin 4, (ledVal ledMode >>> (4 * i.val)) &&& 0xF = ledMode i % 16 := by
    intro i
    rw [and_15_eq_mod, Nat.shiftRight_eq_div_pow, ledVal_eq]
    fin_cases i <;> simp <;> omega
  refine ⟨?_, ?_, ?_, ?_, ?_⟩
  · unfold Lan8720_setLedMode EnetPhy_writeReg
    rw [transportWrite_direct _ _ _ _ hne, hu, hreg]
  · unfold Lan8720_setLedMode EnetPhy_writeReg
    rw [transportWrite_direct _ _ _ _ hne, hu, hreg]
    simp
  · intro i
    rw [hnib i, and_15_eq_mod]
  · intro i hi
    rw [hnib i]
    omega
  · intro other h1 h2 heq
    rw [ledVal_eq, ledVal_eq] at heq
    have a0 := h1 0
    have a1 := h1 1
    have a2 := h1 2
    have a3 := h1 3
    have c0 := h2 0
    have c1 := h2 1
    have c2 := h2 2
    have c3 := h2 3
    funext i
    fin_cases i <;> simp <;> omega

/-- C22, on the array (0xE, 0x1, 0xB, 0xD): the word written is 0xDB1E. -/
theorem setLedMode_packs_four_nibbles_witness :
    (Lan8720_setLedMode Bus.zero ⟨1⟩ (fun i => [0xE, 0x1, 0xB, 0xD].getD i.val 0)).trace =
        [BusOp.write 1 0x18 0xDB1E] ∧
      (ledVal (fun i => [0xE, 0x1, 0xB, 0xD].getD i.val 0) >>> (4 * (2 : Fin 4).val)) &&& 0xF =
        0xB :=
  have h := setLedMode_packs_four_nibbles Bus.zero ⟨1⟩
    (fun i => [0xE, 0x1, 0xB, 0xD].getD i.val 0)
  ⟨h.1, h.2.2.2.1 2 (by decide)⟩

/-- C23: the four LED field masks are pairwise disjoint and their union is
0xFFFF; hence, for every bus state whose next read succeeds and every LED
array, the plain write of `Lan8720_setLedMode` leaves the same register files
as the read-modify-write of the packed word under the union of the four masks
(`setLedMode_rmw`): register 0x18 holds the packed word either way. -/
theorem setLedMode_equals_full_mask_rmw (b : Bus) (hPhy : EnetPhy_Obj) (ledMode : Fin 4 → Nat)
    (hok : b.nextReadOk = true) :
    (LEDCR1_LED0SEL_MASK &&& LEDCR1_LED1SEL_MASK = 0 ∧
        LEDCR1_LED0SEL_MASK &&& LEDCR1_LED2SEL_MASK = 0 ∧
        LEDCR1_LED0SEL_MASK &&& LEDCR1_LED3SEL_MASK = 0 ∧
        LEDCR1_LED1SEL_MASK &&& LEDCR1_LED2SEL_MASK = 0 ∧
        LEDCR1_LED1SEL_MASK &&& LEDCR1_LED3SEL_MASK = 0 ∧
        LEDCR1_LED2SEL_MASK &&& LEDCR1_LED3SEL_MASK = 0) ∧
      LEDCR1_LED0SEL_MASK ||| LEDCR1_LED1SEL_MASK ||| LEDCR1_LED2SEL_MASK |||
        LEDCR1_LED3SEL_MASK = 0xFFFF ∧
      (Lan8720_setLedMode b hPhy ledMode).regs = (setLedMode_rmw b hPhy ledMode).2.regs ∧
      (Lan8720_setLedMode b hPhy ledMode).ext = (setLedMode_rmw b hPhy ledMode).2.ext ∧
      (setLedMode_rmw b hPhy ledMode).2.regs hPhy.addr 0x18 = ledVal ledMode ∧
      (Lan8720_setLedMode b hPhy ledMode).regs hPhy.addr 0x18 = ledVal ledMode := by
  have hne : LAN8720_LEDCR1 ≠ PHY_MMD_DR := by decide
  have hreg : LAN8720_LEDCR1 = 0x18 := rfl
  have hu : u16 (ledVal ledMode) = ledVal ledMode := by unfold ledVal; rw [u16_u16]
  have hmask : LEDCR1_LED0SEL_MASK ||| LEDCR1_LED1SEL_MASK ||| LEDCR1_LED2SEL_MASK |||
      LEDCR1_LED3SEL_MASK = 0xFFFF := by decide
  have hw : Lan8720_setLedMode b hPhy ledMode =
      { b with
        regs := fun a r => if a = hPhy.addr ∧ r = 0x18 then ledVal ledMode else b.regs a r
        trace := b.trace ++ [BusOp.write hPhy.addr 0x18 (ledVal ledMode)] } := by
    unfold Lan8720_setLedMode EnetPhy_writeReg
    rw [transportWrite_direct _ _ _ _ hne, hu, hreg]
  have hr : (setLedMode_rmw b hPhy ledMode).2 =
      { b with
        regs := fun a r => if a = hPhy.addr ∧ r = 0x18 then ledVal ledMode else b.regs a r
        faults := b.faults.tail
        trace := b.trace ++ [BusOp.read hPhy.addr 0x18,
          BusOp.write hPhy.addr 0x18 (ledVal ledMode)] } := by
    unfold setLedMode_rmw
    rw [hmask, rmwReg_ok_eq b hPhy _ _ _ hne hok, rmwMerge_full, hu, hreg]
  refine ⟨by decide, hmask, ?_, ?_, ?_, ?_⟩
  · rw [hw, hr]
  · rw [hw, hr]
  · rw [hr]; simp
  · rw [hw]; simp

/-- C23, on a register holding 0xABCD with the array (0xE, 0x1, 0xB, 0xD). -/
theorem setLedMode_equals_full_mask_rmw_witness :
    (Lan8720_setLedMode { Bus.zero with regs := fun _ _ => 0xABCD } ⟨1⟩
        (fun i => [0xE, 0x1, 0xB, 0xD].getD i.val 0)).regs 1 0x18 = 0xDB1E ∧
      (setLedMode_rmw { Bus.zero with regs := fun _ _ => 0xABCD } ⟨1⟩
        (fun i => [0xE, 0x1, 0xB, 0xD].getD i.val 0)).2.regs 1 0x18 = 0xDB1E :=
  have h := setLedMode_equals_full_mask_rmw { Bus.zero with regs := fun _ _ => 0xABCD } ⟨1⟩
    (fun i => [0xE, 0x1, 0xB, 0xD].getD i.val 0) (by decide)
  ⟨h.2.2.2.2.2, h.2.2.2.2.1⟩

/-- C24: for every prior state with 16-bit registers whose next two reads
succeed, `Lan8720_enableAutoMdix(true)` read-modify-writes direct register
0x1B so that the field under mask 0x0060 is 0x0040 with the other bits
unchanged, and then register 0x1E so that bit 9 is set with the other bits
unchanged; `Lan8720_enableAutoMdix(false)` sets the field of 0x1B to 0x0020 and
issues no bus operation on register 0x1E, which keeps its value. -/
theorem enableAutoMdix_sets_crossover (b : Bus) (hPhy : EnetPhy_Obj)
    (hV1 : b.regs hPhy.addr 0x1B < 65536) (hV2 : b.regs hPhy.addr 0x1E < 65536)
    (hok : b.readsOk 2 = true) :
    ((Lan8720_enableAutoMdix b hPhy true).regs hPhy.addr 0x1B &&& 0x0060 = 0x0040 ∧
        (Lan8720_enableAutoMdix b hPhy true).regs hPhy.addr 0x1B &&& 0xFF9F =
          b.regs hPhy.addr 0x1B &&& 0xFF9F ∧
        (Lan8720_enableAutoMdix b hPhy true).regs hPhy.addr 0x1E =
          b.regs hPhy.addr 0x1E ||| 0x0200 ∧
        ((Lan8720_enableAutoMdix b hPhy true).regs hPhy.addr 0x1E).testBit 9 = true ∧
        (Lan8720_enableAutoMdix b hPhy true).regs hPhy.addr 0x1E &&& 0xFDFF =
          b.regs hPhy.addr 0x1E &&& 0xFDFF ∧
        (Lan8720_enableAutoMdix b hPhy true).trace =
          b.trace ++ [BusOp.read hPhy.addr 0x1B,
            BusOp.write hPhy.addr 0x1B ((b.regs hPhy.addr 0x1B &&& 0xFF9F) ||| 0x0040),
            BusOp.read hPhy.addr 0x1E,
            BusOp.write hPhy.addr 0x1E (b.regs hPhy.addr 0x1E ||| 0x0200)]) ∧
      ((Lan8720_enableAutoMdix b hPhy false).regs hPhy.addr 0x1B &&& 0x0060 = 0x0020 ∧
        (Lan8720_enableAutoMdix b hPhy false).regs hPhy.addr 0x1B &&& 0xFF9F =
          b.regs hPhy.addr 0x1B &&& 0xFF9F ∧
        (Lan8720_enableAutoMdix b hPhy false).regs hPhy.addr 0x1E = b.regs hPhy.addr 0x1E ∧
        (Lan8720_enableAutoMdix b hPhy false).trace =
          b.trace ++ [BusOp.read hPhy.addr 0x1B,
            BusOp.write hPhy.addr 0x1B ((b.regs hPhy.addr 0x1B &&& 0xFF9F) ||| 0x0020)]) := by
  have h1 : b.nextReadOk = true := nextReadOk_of_readsOk b 1 hok
  have hnot : (0xFFFF ^^^ 0x60 : Nat) = 0xFF9F := by decide
  have hnot2 : (0xFFFF ^^^ 0x200 : Nat) = 0xFDFF := by decide
  have e40 : (0x40 &&& 0x60 : Nat) = 0x40 := by decide
  have e20 : (0x20 &&& 0x60 : Nat) = 0x20 := by decide
  have e200 : (0x200 : Nat) = 2 ^ 9 := by norm_num
  -- the crossover field
  have ma := rmwMerge_eq (b.regs hPhy.addr 0x1B) 0x60 0x40 hV1 (by decide)
  have mb := rmwMerge_and_mask (b.regs hPhy.addr 0x1B) 0x60 0x40 (by decide)
  have mc := rmwMerge_and_not_mask (b.regs hPhy.addr 0x1B) 0x60 0x40 hV1
  have na := rmwMerge_eq (b.regs hPhy.addr 0x1B) 0x60 0x20 hV1 (by decide)
  have nb := rmwMerge_and_mask (b.regs hPhy.addr 0x1B) 0x60 0x20 (by decide)
  have nc := rmwMerge_and_not_mask (b.regs hPhy.addr 0x1B) 0x60 0x20 hV1
  rw [hnot, e40] at ma
  rw [hnot, e20] at na
  rw [e40] at mb
  rw [e20] at nb
  rw [hnot] at mc nc
  -- the robust auto-MDIX bit
  have ra : rmwMerge (b.regs hPhy.addr 0x1E) 0x200 0x200 = b.regs hPhy.addr 0x1E ||| 0x200 := by
    rw [e200]; exact rmwMerge_set_bit _ 9 hV2 (by decide)
  have rb : (rmwMerge (b.regs hPhy.addr 0x1E) 0x200 0x200).testBit 9 = true := by
    rw [rmwMerge_testBit]
    have : Nat.testBit 0x200 9 = true := by decide
    simp [this]
  have rc := rmwMerge_and_not_mask (b.regs hPhy.addr 0x1E) 0x200 0x200 hV2
  rw [hnot2] at rc
  have hne : ¬ ((0x1B : Nat) = 0x1E) := by decide
  refine ⟨?_, ?_⟩
  · rw [enableAutoMdix_true_eq b hPhy hok, u16_of_lt hV1, u16_of_lt hV2]
    simp only [and_self, if_true, true_and, hne, if_false]
    exact ⟨mb, mc, ra, rb, rc, by rw [ma, ra]⟩
  · rw [enableAutoMdix_false_eq b hPhy h1, u16_of_lt hV1]
    have hne2 : ¬ ((0x1E : Nat) = 0x1B) := by decide
    simp only [and_self, if_true, true_and, hne2, and_false, if_false]
    exact ⟨nb, nc, by rw [na]⟩

/-- C24, on registers that all hold 0xFFFF: with `enable` true register 0x1B
ends as 0xFFDF and register 0x1E stays 0xFFFF; with `enable` false register
0x1B ends as 0xFFBF after one read and one write. -/
theorem enableAutoMdix_sets_crossover_witness :
    (Lan8720_enableAutoMdix { Bus.zero with regs := fun _ _ => 0xFFFF } ⟨1⟩ true).trace =
        [BusOp.read 1 0x1B, BusOp.write 1 0x1B 0xFFDF, BusOp.read 1 0x1E,
          BusOp.write 1 0x1E 0xFFFF] ∧
      (Lan8720_enableAutoMdix { Bus.zero with regs := fun _ _ => 0xFFFF } ⟨1⟩ false).trace =
        [BusOp.read 1 0x1B, BusOp.write 1 0x1B 0xFFBF] :=
  have h := enableAutoMdix_sets_crossover { Bus.zero with regs := fun _ _ => 0xFFFF } ⟨1⟩
    (by decide) (by decide) (by decide)
  ⟨h.1.2.2.2.2.2, h.2.2.2.2⟩

/-- C25: `Lan8720_fixFldStrap` first reads the strap-status extended register
(0x6F).  When its bit 0x0400 is set (and both reads succeed), the FLD threshold
register (0x70) ends with the bits under mask 0x0007 equal to 1 and its other
13 bits unchanged, no other extended register changing.  When the bit is clear
(and the read succeeds), the bus operations are those of the extended read
alone: no extended register is written, and no direct register other than the
MMD access control register changes. -/
theorem fixFldStrap_forces_threshold (b : Bus) (hPhy : EnetPhy_Obj)
    (hS : b.ext hPhy.addr 0x6F < 65536) (hV : b.ext hPhy.addr 0x70 < 65536) :
    (b.ext hPhy.addr 0x6F &&& 0x0400 ≠ 0 → b.readsOk 2 = true →
        (Lan8720_fixFldStrap b hPhy).ext hPhy.addr 0x70 &&& 0x0007 = 1 ∧
          (Lan8720_fixFldStrap b hPhy).ext hPhy.addr 0x70 &&& 0xFFF8 =
            b.ext hPhy.addr 0x70 &&& 0xFFF8 ∧
          (Lan8720_fixFldStrap b hPhy).ext hPhy.addr 0x70 =
            (b.ext hPhy.addr 0x70 &&& 0xFFF8) ||| 1 ∧
          (∀ a r, ¬ (a = hPhy.addr ∧ r = 0x70) →
            (Lan8720_fixFldStrap b hPhy).ext a r = b.ext a r) ∧
          (Lan8720_fixFldStrap b hPhy).trace.take (b.trace.length + 4) =
            b.trace ++ [BusOp.write hPhy.addr PHY_MMD_CR 0x1F,
              BusOp.write hPhy.addr PHY_MMD_DR 0x6F,
              BusOp.write hPhy.addr PHY_MMD_CR 0x401F,
              BusOp.read hPhy.addr PHY_MMD_DR]) ∧
      (b.ext hPhy.addr 0x6F &&& 0x0400 = 0 → b.nextReadOk = true →
        (Lan8720_fixFldStrap b hPhy).ext = b.ext ∧
          (Lan8720_fixFldStrap b hPhy).trace =
            b.trace ++ [BusOp.write hPhy.addr PHY_MMD_CR 0x1F,
              BusOp.write hPhy.addr PHY_MMD_DR 0x6F,
              BusOp.write hPhy.addr PHY_MMD_CR 0x401F,
              BusOp.read hPhy.addr PHY_MMD_DR] ∧
          (∀ a r, r ≠ PHY_MMD_CR → (Lan8720_fixFldStrap b hPhy).regs a r = b.regs a r)) := by
  have hnot : (0xFFFF ^^^ 0x0007 : Nat) = 0xFFF8 := by decide
  have e1 : (1 &&& 0x0007 : Nat) = 1 := by decide
  refine ⟨?_, ?_⟩
  · intro hset hok
    have hset2 : u16 (b.ext hPhy.addr 0x6F) &&& 0x0400 ≠ 0 := by rw [u16_of_lt hS]; exact hset
    have ma := rmwMerge_eq (b.ext hPhy.addr 0x70) 0x0007 1 hV (by decide)
    have mb := rmwMerge_and_mask (b.ext hPhy.addr 0x70) 0x0007 1 (by decide)
    have mc := rmwMerge_and_not_mask (b.ext hPhy.addr 0x70) 0x0007 1 hV
    rw [hnot, e1] at ma
    rw [e1] at mb
    rw [hnot] at mc
    rw [fixFldStrap_set_eq b hPhy hok hset2, u16_of_lt hV]
    simp only [and_self, if_true]
    refine ⟨mb, mc, ma, ?_, ?_⟩
    · intro a r h
      simp only [h, if_false]
    · rw [List.take_append_eq_append_take]
      simp
  · intro hclr hok
    have hclr2 : u16 (b.ext hPhy.addr 0x6F) &&& 0x0400 = 0 := by rw [u16_of_lt hS]; exact hclr
    rw [fixFldStrap_clear_eq b hPhy hok hclr2]
    refine ⟨rfl, rfl, ?_⟩
    intro a r h
    simp [h]

/-- C25, with the strap bit set on a threshold register holding 0xFFFF, which
ends as 0xFFF9. -/
theorem fixFldStrap_forces_threshold_witness :
    (Lan8720_fixFldStrap
        { Bus.zero with ext := fun _ r => if r = 0x6F then 0x0400 else 0xFFFF } ⟨1⟩).ext
      1 0x70 = 0xFFF9 :=
  ((fixFldStrap_forces_threshold
    { Bus.zero with ext := fun _ r => if r = 0x6F then 0x0400 else 0xFFFF } ⟨1⟩
    (by decide) (by decide)).1 (by decide) (by decide)).2.2.1

/-- C26: `Lan8720_setLoopbackCfg` issues four bus writes and no read; they
leave the loopback extended register (0xFE) equal to 0xE720 when `enable` is
true and to 0xE721 when it is false, whatever it held; the two values differ;
every other extended register keeps its content, and so does every direct
register other than the MMD access control register. -/
theorem setLoopbackCfg_overwrites_loopcr (b : Bus) (hPhy : EnetPhy_Obj) (enable : Bool) :
    (Lan8720_setLoopbackCfg b hPhy enable).ext hPhy.addr 0xFE =
        (if enable then 0xE720 else 0xE721) ∧
      LOOPCR_CFG_LOOPBACK = 0xE720 ∧ LOOPCR_CFG_NORMAL = 0xE721 ∧
      LOOPCR_CFG_LOOPBACK ≠ LOOPCR_CFG_NORMAL ∧
      (Lan8720_setLoopbackCfg b hPhy enable).trace =
        b.trace ++ [BusOp.write hPhy.addr PHY_MMD_CR 0x1F,
          BusOp.write hPhy.addr PHY_MMD_DR 0xFE,
          BusOp.write hPhy.addr PHY_MMD_CR 0x401F,
          BusOp.write hPhy.addr PHY_MMD_DR (if enable then 0xE720 else 0xE721)] ∧
      (∀ a r, ¬ (a = hPhy.addr ∧ r = 0xFE) →
        (Lan8720_setLoopbackCfg b hPhy enable).ext a r = b.ext a r) ∧
      (∀ a r, r ≠ PHY_MMD_CR → (Lan8720_setLoopbackCfg b hPhy enable).regs a r = b.regs a r) := by
  have hreg : u16 LAN8720_LOOPCR = 0xFE := by decide
  have hval : u16 (if enable then LOOPCR_CFG_LOOPBACK else LOOPCR_CFG_NORMAL) =
      (if enable then 0xE720 else 0xE721) := by
    cases enable <;> decide
  unfold Lan8720_setLoopbackCfg
  simp only []
  rw [writeExtReg_eq, hreg, hval]
  refine ⟨by simp, rfl, rfl, by decide, rfl, ?_, ?_⟩
  · intro a r h
    simp only [h, if_false]
  · intro a r h
    simp [h]

/-- C26, on a register holding 0xFFFF, for the PHY at address 1. -/
theorem setLoopbackCfg_overwrites_loopcr_witness :
    (Lan8720_setLoopbackCfg { Bus.zero with ext := fun _ _ => 0xFFFF } ⟨1⟩ true).ext 1 0xFE =
        0xE720 ∧
      (Lan8720_setLoopbackCfg { Bus.zero with ext := fun _ _ => 0xFFFF } ⟨1⟩ true).ext 1 0x86 =
        0xFFFF :=
  have h := setLoopbackCfg_overwrites_loopcr { Bus.zero with ext := fun _ _ => 0xFFFF } ⟨1⟩ true
  ⟨h.1, h.2.2.2.2.2.1 1 0x86 (by decide)⟩

/-- C27: the raw code `Lan8720_setOutputImpedance` computes and passes on is
`impedanceVal`; for all z1 <= z2 in 35000..70000 the code for z1 is at least
the code for z2, and every code 0..31 is the code of some impedance in the
range. -/
theorem impedance_code_antitone_and_onto (z1 z2 : Nat) (h1 : 35000 ≤ z1) (h12 : z1 ≤ z2)
    (h2 : z2 ≤ 70000) :
    impedanceVal z2 ≤ impedanceVal z1 ∧
      (∀ (b : Bus) (hPhy : EnetPhy_Obj),
        Lan8720_setOutputImpedance b hPhy z1 =
          (ENETPHY_SOK, Lan8720_rmwExtReg b hPhy 0x170 0x001F (impedanceVal z1))) ∧
      (∀ c, c ≤ 31 → ∃ z, 35000 ≤ z ∧ z ≤ 70000 ∧ impedanceVal z = c) := by
  refine ⟨?_, ?_, ?_⟩
  · rw [impedanceVal_eq (by omega) h2, impedanceVal_eq h1 (by omega)]
    unfold rawImpedance
    omega
  · intro b hPhy
    have hc : u32 z1 ≥ IOMUXCFG_IOIMPEDANCE_MIN ∧ u32 z1 ≤ IOMUXCFG_IOIMPEDANCE_MAX := by
      unfold u32 IOMUXCFG_IOIMPEDANCE_MIN IOMUXCFG_IOIMPEDANCE_MAX; omega
    unfold Lan8720_setOutputImpedance
    rw [if_pos hc]
    rfl
  · intro c hc
    refine ⟨70000 - (c * 35000 + 15) / 31, by omega, by omega, ?_⟩
    rw [impedanceVal_eq (by omega) (by omega)]
    unfold rawImpedance
    omega

/-- C27, at the impedances 40000 and 60000, whose codes are 27 and 9. -/
theorem impedance_code_antitone_and_onto_witness :
    impedanceVal 60000 ≤ impedanceVal 40000 ∧ impedanceVal 40000 = 27 ∧
      impedanceVal 60000 = 9 :=
  ⟨(impedance_code_antitone_and_onto 40000 60000 (by decide) (by decide) (by decide)).1,
    by decide, by decide⟩

/-- C28: for every 16-bit prior value V of the global control register (0x1F),
when the bus read succeeds the second `Lan8720_reset` (the one on
`LAN8720_CTRL`) is one read and one write of that register, which leaves it
equal to `V | 0x8000`: bit 15 set, bits 0..14 as in V; no other direct register
and no extended register changes. -/
theorem reset_ctrl_sets_only_swreset (b : Bus) (hPhy : EnetPhy_Obj)
    (hV : b.regs hPhy.addr 0x1F < 65536) (hok : b.nextReadOk = true) :
    (Lan8720_reset_ctrl b hPhy).regs hPhy.addr 0x1F = b.regs hPhy.addr 0x1F ||| 0x8000 ∧
      ((Lan8720_reset_ctrl b hPhy).regs hPhy.addr 0x1F).testBit 15 = true ∧
      (∀ i, i < 15 → ((Lan8720_reset_ctrl b hPhy).regs hPhy.addr 0x1F).testBit i =
        (b.regs hPhy.addr 0x1F).testBit i) ∧
      (Lan8720_reset_ctrl b hPhy).trace =
        b.trace ++ [BusOp.read hPhy.addr 0x1F,
          BusOp.write hPhy.addr 0x1F (b.regs hPhy.addr 0x1F ||| 0x8000)] ∧
      (∀ a r, ¬ (a = hPhy.addr ∧ r = 0x1F) →
        (Lan8720_reset_ctrl b hPhy).regs a r = b.regs a r) ∧
      (Lan8720_reset_ctrl b hPhy).ext = b.ext := by
  have e : (0x8000 : Nat) = 2 ^ 15 := by norm_num
  have hm : rmwMerge (b.regs hPhy.addr 0x1F) 0x8000 0x8000 = b.regs hPhy.addr 0x1F ||| 0x8000 := by
    rw [e]; exact rmwMerge_set_bit _ 15 hV (by decide)
  rw [reset_ctrl_ok_eq b hPhy hok, u16_of_lt hV, hm]
  simp only [and_self, if_true]
  refine ⟨trivial, ?_, ?_, trivial, ?_, trivial⟩
  · rw [Nat.testBit_or]
    have : Nat.testBit 0x8000 15 = true := by decide
    simp [this]
  · intro i hi
    rw [Nat.testBit_or, e, Nat.testBit_two_pow]
    have : ¬ (15 = i) := by omega
    simp [this]
  · intro a r h
    simp only [h, if_false]

/-- C28, on a register holding 0x1234: it ends as 0x9234. -/
theorem reset_ctrl_sets_only_swreset_witness :
    (Lan8720_reset_ctrl { Bus.zero with regs := fun _ _ => 0x1234 } ⟨1⟩).trace =
      [BusOp.read 1 0x1F, BusOp.write 1 0x1F 0x9234] :=
  (reset_ctrl_sets_only_swreset { Bus.zero with regs := fun _ _ => 0x1234 } ⟨1⟩ (by decide)
    (by decide)).2.2.2.1

/-- C29: for every cfg and every link mode `Lan8720_config` returns success;
its bus operations are a read of each of the two PHY ID registers (0x02, 0x03)
and one write of 0x1200, that is auto-negotiation-enable |
restart-auto-negotiation, to the basic control register (0x00), all on the PHY
at `ENET_PHY_ADDR`; that write is its only change to a direct register and no
extended register changes. -/
theorem config_only_writes_bmcr (b : Bus) (hPhy : EnetPhy_Obj) (cfg : EnetPhy_Cfg)
    (mii : EnetPhy_Mii) :
    (Lan8720_config b hPhy cfg mii).1 = ENETPHY_SOK ∧
      (Lan8720_config b hPhy cfg mii).2.trace =
        b.trace ++ [BusOp.read ENET_PHY_ADDR 0x02, BusOp.read ENET_PHY_ADDR 0x03,
          BusOp.write ENET_PHY_ADDR 0x00 0x1200] ∧
      BMCR_AUTO_NEG_ENABLE ||| BMCR_RESTART_AUTO_NEG = 0x1200 ∧
      (Lan8720_config b hPhy cfg mii).2.regs =
        (fun a r => if a = ENET_PHY_ADDR ∧ r = 0x00 then 0x1200 else b.regs a r) ∧
      (Lan8720_config b hPhy cfg mii).2.ext = b.ext ∧
      (Lan8720_config b hPhy cfg mii).2.mmdAddr = b.mmdAddr := by
  have ha : ENET_PHY_ADDR = 1 := rfl
  unfold Lan8720_config
  simp only []
  rw [Ethernet_config_eq, ha]
  exact ⟨trivial, rfl, by decide, rfl, rfl, rfl⟩

/-- C30, the code at a failing input.  The second `Lan8720_isResetComplete`
(on `LAN8720_CTRL`) does what the claim says on every bus: it returns true
exactly when its read succeeds and bit 15 of the register is 0.  The first one
(on `LAN8720_BMCR`) does not look at the status: on a bus whose basic control
register holds 0x8000 and whose read fails leaving 0 in the variable, it
returns true. -/
theorem isResetComplete_bmcr_true_on_failed_read :
    (∀ (b : Bus) (hPhy : EnetPhy_Obj),
        (Lan8720_isResetComplete_ctrl b hPhy).1 =
          (b.nextReadOk && !(b.regs hPhy.addr 0x1F).testBit 15)) ∧
      ({ Bus.zero with regs := fun _ _ => 0x8000, faults := [some 0] } : Bus).nextReadOk = false ∧
      (Lan8720_isResetComplete_bmcr
        { Bus.zero with regs := fun _ _ => 0x8000, faults := [some 0] } ⟨1⟩).1 = true ∧
      (Lan8720_isResetComplete_bmcr
        { Bus.zero with regs := fun _ _ => 0x8000, faults := [some 0] } ⟨1⟩).2.trace =
        [BusOp.read 1 0x00] ∧
      (Lan8720_isResetComplete_ctrl
        { Bus.zero with regs := fun _ _ => 0x8000, faults := [some 0] } ⟨1⟩).1 = false := by
  refine ⟨?_, rfl, by decide, by decide, by decide⟩
  intro b hPhy
  by_cases hok : b.nextReadOk = true
  · rw [isResetComplete_ctrl_ok b hPhy hok, hok]
    simp
  · have hno : b.nextReadOk = false := by simpa using hok
    obtain ⟨g, rest, hf⟩ := faults_of_not_nextReadOk b hno
    rw [isResetComplete_ctrl_fail b hPhy g rest hf, hno]
    simp

/-- C31: the step count `Lan8720_setClkDelay` computes for a delay
(`delayCtrl`, which equals `steps` on 0..4000 and is what the function packs
into the register) is monotone: for all d1 <= d2 in 0..4000 the count for d1
is at most the count for d2, and when d2 exceeds d1 by less than 250 the count
rises by at most 1; the delays 0 and 1..250 all give the count 0. -/
theorem delayCtrl_monotone (d1 d2 : Nat) (h12 : d1 ≤ d2) (h2 : d2 ≤ 4000) :
    delayCtrl d1 ≤ delayCtrl d2 ∧
      (d2 < d1 + 250 → delayCtrl d2 ≤ delayCtrl d1 + 1) ∧
      delayCtrl d1 = steps d1 ∧ delayCtrl d2 = steps d2 ∧
      delayCtrl 0 = 0 ∧
      (∀ d, 1 ≤ d → d ≤ 250 → delayCtrl d = 0) ∧
      (∀ (b : Bus) (hPhy : EnetPhy_Obj),
        (Lan8720_setClkDelay b hPhy d1 d2).2.ext hPhy.addr 0x86 =
          (delayCtrl d1 <<< 4) ||| delayCtrl d2) := by
  have h1 : d1 ≤ 4000 := Nat.le_trans h12 h2
  have e1 := delayCtrl_eq_steps h1
  have e2 := delayCtrl_eq_steps h2
  refine ⟨?_, ?_, e1, e2, by decide, ?_, ?_⟩
  · rw [e1, e2]
    unfold steps
    omega
  · intro hlt
    rw [e1, e2]
    unfold steps
    omega
  · intro d hlo hhi
    rw [delayCtrl_eq_steps (by omega)]
    unfold steps
    omega
  · intro b hPhy
    have hlt := packed_lt_256 (steps_le h1) (steps_le h2)
    have hv : u16 ((steps d1 <<< 4) ||| steps d2) = (steps d1 <<< 4) ||| steps d2 :=
      u16_of_lt (by omega)
    have hreg : u16 0x86 = 0x86 := by decide
    rw [setClkDelay_ok_eq b hPhy h1 h2, writeExtReg_eq, hv, hreg, e1, e2]
    simp

/-- C31, at the delays 250 and 251, one on each side of a step boundary: the
counts are 0 and 1. -/
theorem delayCtrl_monotone_witness :
    delayCtrl 250 ≤ delayCtrl 251 ∧ delayCtrl 251 ≤ delayCtrl 250 + 1 ∧
      delayCtrl 250 = 0 ∧ delayCtrl 251 = 1 :=
  have h := delayCtrl_monotone 250 251 (by decide) (by decide)
  ⟨h.1, h.2.1 (by decide), h.2.2.2.2.2.1 250 (by decide) (by decide), by decide⟩

end Lan8720
